import Mathlib

/-!
Training listings: filter, search and pagination logic.

A shallow embedding of `assets/js/filters.js` (class `TrainingFilters`) and the
properties of its filter pipeline.

Modelling conventions

* A JavaScript array is a `List`; `Array.prototype.filter` is `List.filter`
  (it keeps the elements satisfying the callback, in their original order).
* A record's `price` and `id` are integers (the data model's integer currency
  unit); text fields are `String`; `location`, `city` and `state` are
  `Option String`, `none` standing for `null`.
* The controller's fields (`trainings`, `filteredTrainings`, `currentPage`,
  `itemsPerPage`) form the `State`; every method is a function on `State`.
  What a method reads from the page (checked checkboxes, the checked price
  radio, the two selects) is the `Dom` argument.  Rendering writes only to
  the page and is not part of the state.
* A string is its sequence of Unicode characters.
  `String.prototype.toLowerCase` depends on the case table of Unicode, which is
  not part of the program.  The search of the public view is therefore written
  over an arbitrary lower-casing `lower : String → String`
  (`searchTrainingsWith`), and its contract is proved for every such function.
  `toLowerCase` is the lower-casing of the ASCII letters `A`-`Z` (every other
  character is left as it is), which agrees with the built-in on ASCII text;
  it is what `searchTrainings` and the duration filter are evaluated with.
-/

namespace TrainingFilters

/-! ## Data model -/

/-- One entry of `this.trainings` (the numeric `rating`, which no method reads,
is left out). -/
structure Training where
  id : Int
  title : String
  category : String
  type : String
  price : Int
  duration : String
  location : Option String
  city : Option String
  state : Option String
  image : String
  description : String
  featured : Bool
  provider : String
  deriving DecidableEq

/-- The fields of a `TrainingFilters` instance. -/
structure State where
  trainings : List Training
  filteredTrainings : List Training
  currentPage : Int
  itemsPerPage : Nat
  deriving DecidableEq

/-- What the filter methods read from the document.

* `checkedCheckboxes`: the `value` of every `input[type="checkbox"]:checked`,
  in document order (a checkbox without a `value` attribute reports `"on"`);
* `priceChecked`: the `value` of `input[name="price"]:checked`, `none` when no
  price radio is checked;
* `stateSelect`, `citySelect`: the `value` of `select[name="state"]` and
  `select[name="city"]`, `none` when the element is absent. -/
structure Dom where
  checkedCheckboxes : List String
  priceChecked : Option String
  stateSelect : Option String
  citySelect : Option String
  deriving DecidableEq

/-! ## String primitives -/

/-- `String.prototype.toLowerCase`, on ASCII letters. -/
def toLowerCase (s : String) : String :=
  ⟨s.data.map Char.toLower⟩

/-- Substring test on character lists: `sub` occurs in `s` at some offset. -/
def includesChars : List Char → List Char → Bool
  | [], sub => sub.isEmpty
  | c :: rest, sub => sub.isPrefixOf (c :: rest) || includesChars rest sub

/-- `String.prototype.includes`. -/
def includes (s sub : String) : Bool :=
  includesChars s.data sub.data

/-- The characters `String.prototype.trim` and `parseInt` strip: the
ECMAScript `WhiteSpace` and `LineTerminator` code points. -/
def isWhiteSpace (c : Char) : Bool :=
  let n := c.toNat
  n == 0x09 || n == 0x0A || n == 0x0B || n == 0x0C || n == 0x0D || n == 0x20 ||
  n == 0xA0 || n == 0x1680 || (0x2000 ≤ n && n ≤ 0x200A) || n == 0x2028 ||
  n == 0x2029 || n == 0x202F || n == 0x205F || n == 0x3000 || n == 0xFEFF

/-- The test `query.trim() === ''`: every character is white space. -/
def trimIsEmpty (s : String) : Bool :=
  s.data.all isWhiteSpace

/-- The value of a character as a digit in some radix up to 36. -/
def digitOf (c : Char) : Option Nat :=
  let n := c.toNat
  if 48 ≤ n ∧ n ≤ 57 then some (n - 48)
  else if 97 ≤ n ∧ n ≤ 122 then some (n - 87)
  else if 65 ≤ n ∧ n ≤ 90 then some (n - 55)
  else none

/-- Is `c` a digit of the given radix? -/
def isRadixDigit (radix : Nat) (c : Char) : Bool :=
  match digitOf c with
  | some d => decide (d < radix)
  | none => false

/-- The number a list of digits denotes in the given radix. -/
def numberOf (radix : Nat) (z : List Char) : Nat :=
  z.foldl (fun acc c => acc * radix + (digitOf c).getD 0) 0

/-- Steps 3-4 of `parseInt`: an optional leading sign. -/
def stripSign : List Char → Bool × List Char
  | [] => (false, [])
  | c :: r => if c = '-' then (true, r) else if c = '+' then (false, r) else (false, c :: r)

/-- Step 7 of `parseInt` when no radix is passed: a leading `0x` or `0X`
switches to radix 16. -/
def stripHex : List Char → Nat × List Char
  | c :: d :: r => if c = '0' ∧ (d = 'x' ∨ d = 'X') then (16, r) else (10, c :: d :: r)
  | cs => (10, cs)

/-- `parseInt` on the characters of its argument. -/
def parseIntChars (cs : List Char) : Option Int :=
  let signed := stripSign (cs.dropWhile isWhiteSpace)
  let based := stripHex signed.2
  let z := based.2.takeWhile (isRadixDigit based.1)
  if z.isEmpty then none
  else if signed.1 then some (-(numberOf based.1 z : Int)) else some (numberOf based.1 z : Int)

/-- The global `parseInt(string)` with no radix argument: leading white space
is skipped, a sign is read, `0x`/`0X` selects radix 16 (radix 10 otherwise),
and the longest run of digits is converted; `none` is `NaN`.  The result is
the exact integer, which is the JavaScript number for every integer of
magnitude up to 2^53; the filter only compares it with `1`, `3` and `6`, which
rounding to a double does not change.  Above 2^53 the JavaScript number is the
nearest double: two counts that far apart by less than the spacing of doubles
are equal for the code and distinct here. -/
def parseInt (s : String) : Option Int :=
  parseIntChars s.data

/-! ## Price filter -/

/-- `filterByPrice(trainings, priceRange)`. -/
def filterByPrice (trainings : List Training) (priceRange : String) : List Training :=
  if priceRange = "free" then trainings.filter (fun t => t.price == 0)
  else if priceRange = "paid" then trainings.filter (fun t => decide (t.price > 0))
  else if priceRange = "0-50000" then trainings.filter (fun t => decide (t.price ≤ 50000))
  else if priceRange = "50000-100000" then
    trainings.filter (fun t => decide (t.price > 50000) && decide (t.price ≤ 100000))
  else if priceRange = "100000+" then trainings.filter (fun t => decide (t.price > 100000))
  else trainings

/-! ## Duration filter -/

/-- The callback of `selectedDurations.some(...)` in `filterByDuration`:
does the (lower-cased) `duration` fall in the bucket named `selected`?  A
comparison with `NaN` is false. -/
def durationMatches (duration : String) (selected : String) : Bool :=
  if selected = "1month" then includes duration "1 month" || includes duration "weeks"
  else if selected = "1-3months" then
    match parseInt duration with
    | some months => decide (months ≥ 1) && decide (months ≤ 3)
    | none => false
  else if selected = "3-6months" then
    match parseInt duration with
    | some months => decide (months > 3) && decide (months ≤ 6)
    | none => false
  else if selected = "6months" then
    match parseInt duration with
    | some months => decide (months > 6)
    | none => false
  else false

/-- The callback of `trainings.filter(...)` in `filterByDuration`. -/
def durationKept (selectedDurations : List String) (training : Training) : Bool :=
  selectedDurations.any (durationMatches (toLowerCase training.duration))

/-- `filterByDuration(trainings, selectedDurations)`. -/
def filterByDuration (trainings : List Training) (selectedDurations : List String) :
    List Training :=
  trainings.filter (durationKept selectedDurations)

/-! ## Reading the criteria from the page -/

/-- `getSelectedCategories()`: the value of every checked checkbox, except an
empty value and the default `"on"`. -/
def getSelectedCategories (dom : Dom) : List String :=
  dom.checkedCheckboxes.filter (fun v => v != "" && v != "on")

/-- `getSelectedPriceRange()`. -/
def getSelectedPriceRange (dom : Dom) : Option String :=
  dom.priceChecked

/-- `getSelectedDurations()`: the value of every checked checkbox whose value
contains `month`. -/
def getSelectedDurations (dom : Dom) : List String :=
  dom.checkedCheckboxes.filter (fun v => includes v "month")

/-- `getSelectedState()`. -/
def getSelectedState (dom : Dom) : Option String :=
  dom.stateSelect

/-- `getSelectedCity()`. -/
def getSelectedCity (dom : Dom) : Option String :=
  dom.citySelect

/-- JavaScript truthiness of a string-or-null: `null` and `''` are falsy. -/
def truthy : Option String → Bool
  | none => false
  | some v => v != ""

/-! ## The controller's methods -/

/-- The five facet steps of `applyFilters()`, giving the local `filtered`. -/
def facetFilter (dom : Dom) (trainings : List Training) : List Training :=
  let filtered := trainings
  let selectedCategories := getSelectedCategories dom
  let filtered :=
    if selectedCategories.length > 0 then
      filtered.filter (fun training => selectedCategories.contains training.category)
    else filtered
  let filtered :=
    match getSelectedPriceRange dom with
    | some priceRange => if priceRange != "" then filterByPrice filtered priceRange else filtered
    | none => filtered
  let selectedDurations := getSelectedDurations dom
  let filtered :=
    if selectedDurations.length > 0 then filterByDuration filtered selectedDurations
    else filtered
  let filtered :=
    match getSelectedState dom with
    | some selectedState =>
      if selectedState != "" then
        filtered.filter (fun training => training.state == some selectedState)
      else filtered
    | none => filtered
  let filtered :=
    match getSelectedCity dom with
    | some selectedCity =>
      if selectedCity != "" then
        filtered.filter (fun training => training.city == some selectedCity)
      else filtered
    | none => filtered
  filtered

/-- `applyFilters()`. -/
def applyFilters (dom : Dom) (s : State) : State :=
  { s with filteredTrainings := facetFilter dom s.trainings, currentPage := 1 }

/-- `filterByType(button)`, as a function of the button's `textContent`. -/
def filterByType (text : String) (s : State) : State :=
  let filtered :=
    if includes text "Online Only" then s.trainings.filter (fun t => t.type == "online")
    else if includes text "Physical Only" then s.trainings.filter (fun t => t.type == "physical")
    else s.trainings
  { s with filteredTrainings := filtered, currentPage := 1 }

/-- The callback of `this.trainings.filter(...)` in `searchTrainings`, for the
already lower-cased `query`; `lower` is what `.toLowerCase()` does to a field.
A location that is `null` or the empty string is falsy and ends the test. -/
def searchMatchesWith (lower : String → String) (query : String) (training : Training) :
    Bool :=
  includes (lower training.title) query ||
  includes (lower training.description) query ||
  includes (lower training.category) query ||
  (match training.location with
   | some location => location != "" && includes (lower location) query
   | none => false)

/-- `searchTrainings(query)`, with `lower` for `String.prototype.toLowerCase`:
a query that is empty or trims to the empty string calls `applyFilters()`;
any other query is lower-cased and `this.trainings` is filtered with the
callback. -/
def searchTrainingsWith (lower : String → String) (dom : Dom) (query : String) (s : State) :
    State :=
  if query = "" ∨ trimIsEmpty query = true then applyFilters dom s
  else
    let query := lower query
    { s with filteredTrainings := s.trainings.filter (searchMatchesWith lower query),
             currentPage := 1 }

/-- The callback of the search, with the lower-casing `toLowerCase`. -/
def searchMatches (query : String) (training : Training) : Bool :=
  searchMatchesWith toLowerCase query training

/-- `searchTrainings(query)`, with the lower-casing `toLowerCase`. -/
def searchTrainings (dom : Dom) (query : String) (s : State) : State :=
  searchTrainingsWith toLowerCase dom query s

/-- `updateResultsCount()`: the number shown is `filteredTrainings.length`. -/
def resultsCount (s : State) : Nat :=
  s.filteredTrainings.length

/-! ## Seed data -/

/-- The six sample records assigned by `loadTrainings()`. -/
def seedTrainings : List Training :=
  [ { id := 1, title := "Full Stack Web Development Bootcamp", category := "tech",
      type := "online", price := 150000, duration := "6 months",
      location := none, city := none, state := none,
      image := "https://images.unsplash.com/photo-1517694712202-14dd9538aa97?w=800&h=600&fit=crop",
      description := "Learn HTML, CSS, JavaScript, React, and Node.js with hands-on projects.",
      featured := true, provider := "TechPro Academy" },
    { id := 2, title := "Digital Marketing Masterclass", category := "business",
      type := "online", price := 75000, duration := "3 months",
      location := none, city := none, state := none,
      image := "https://images.unsplash.com/photo-1460925895917-afdab827c52f?w=800&h=600&fit=crop",
      description := "Master SEO, social media marketing, and paid advertising.",
      featured := true, provider := "Digital Masters NG" },
    { id := 3, title := "Professional Fashion Design", category := "creative",
      type := "physical", price := 80000, duration := "4 months",
      location := some "Abuja", city := some "Abuja", state := some "FCT",
      image := "https://images.unsplash.com/photo-1558769132-cb1aea1f1c1c?w=800&h=600&fit=crop",
      description := "Master pattern making, sewing techniques, and fashion illustration.",
      featured := false, provider := "Style Academy" },
    { id := 4, title := "Data Science & Analytics", category := "tech",
      type := "online", price := 200000, duration := "5 months",
      location := none, city := none, state := none,
      image := "https://images.unsplash.com/photo-1516321318423-f06f85e504b3?w=800&h=600&fit=crop",
      description := "Master Python, SQL, machine learning, and data visualization.",
      featured := true, provider := "Data Science NG" },
    { id := 5, title := "Professional Photography", category := "creative",
      type := "physical", price := 90000, duration := "5 months",
      location := some "Ibadan", city := some "Ibadan", state := some "Oyo",
      image := "https://images.unsplash.com/photo-1542038784456-1ea8e935640e?w=800&h=600&fit=crop",
      description := "Learn camera techniques, lighting, and editing.",
      featured := false, provider := "Lens Masters" },
    { id := 6, title := "Professional Catering", category := "creative",
      type := "physical", price := 60000, duration := "3 months",
      location := some "Port Harcourt", city := some "Port Harcourt", state := some "Rivers",
      image := "https://images.unsplash.com/photo-1556910103-1c02745aae4d?w=800&h=600&fit=crop",
      description := "Learn menu planning, food preparation, and event catering.",
      featured := false, provider := "Culinary Arts PH" } ]

/-- `loadTrainings()`: the seed becomes the collection and the filtered list. -/
def loadTrainings (s : State) : State :=
  { s with trainings := seedTrainings, filteredTrainings := seedTrainings }

/-- The fields as the constructor sets them, before `init()`. -/
def constructed : State :=
  { trainings := [], filteredTrainings := [], currentPage := 1, itemsPerPage := 6 }

/-- A page with nothing checked or selected. -/
def emptyDom : Dom :=
  { checkedCheckboxes := [], priceChecked := none, stateSelect := some "", citySelect := some "" }


/-- The four price options the coverage property speaks of. -/
def priceOptions : List String :=
  ["free", "0-50000", "50000-100000", "100000+"]

/-- A record with the given price and duration; the other fields are fixed. -/
def sample (price : Int) (duration : String) : Training :=
  { id := 7, title := "Intro to Welding", category := "vocational", type := "physical",
    price := price, duration := duration, location := some "Kano", city := some "Kano",
    state := some "Kano", image := "", description := "Workshop practice.",
    featured := false, provider := "Metal Works" }

/-- The month-count reading of the duration buckets: `1month` is a count of
at most 1, `1-3months` is 1 <= count <= 3, `3-6months` is 3 < count <= 6 and
`6months` is a count above 6. -/
def countInBucket (bucket : String) (months : Int) : Bool :=
  if bucket = "1month" then decide (months ≤ 1)
  else if bucket = "1-3months" then decide (1 ≤ months ∧ months ≤ 3)
  else if bucket = "3-6months" then decide (3 < months ∧ months ≤ 6)
  else if bucket = "6months" then decide (6 < months)
  else false

/-! ## Reading of the claims -/

/-- A decimal digit `0`-`9`. -/
def isDecimalDigit (c : Char) : Bool :=
  decide (48 ≤ c.toNat ∧ c.toNat ≤ 57)

/-- The decimal integer a string starts with: the value of its longest leading
run of decimal digits, `none` when it does not start with a digit. -/
def leadingDecimal (s : String) : Option Nat :=
  let z := s.data.takeWhile isDecimalDigit
  if z.isEmpty then none else some (numberOf 10 z)

/-- Does the string begin with the hexadecimal marker `0x` or `0X`? -/
def hexPrefixed (s : String) : Bool :=
  match s.data with
  | c :: d :: _ => decide (c = '0' ∧ (d = 'x' ∨ d = 'X'))
  | _ => false

/-- `initEventListeners()`.  The listeners it registers change no field; what
matters to `init()` is how the call ends.  After the listeners of the
checkboxes, the price radios, the selects, the search box and the sort select
it passes the selector `button:contains("Apply Filters")` to
`document.querySelector`; `:contains` is not a CSS pseudo-class, so that call
throws a `SyntaxError` on every page and the statements after it (the reset
button, the type buttons) are not reached. -/
def initEventListeners : Except String Unit :=
  Except.error "SyntaxError"

/-- `init()`: `loadTrainings()`, `initEventListeners()`, `applyFilters()`.  The
exception of `initEventListeners()` ends it before `applyFilters()`: nothing is
rendered by `init()` itself. -/
def init (dom : Dom) : Except String State := do
  let s := loadTrainings constructed
  initEventListeners
  pure (applyFilters dom s)

/-- The state of a freshly constructed controller after `loadTrainings()` and
one call of `applyFilters()`, as the `change` listener of a checkbox, a price
radio or a select makes it (these listeners are registered before the
exception in `initEventListeners()`). -/
def afterApplyFilters (dom : Dom) : State :=
  applyFilters dom (loadTrainings constructed)

/-- The five values `filterByPrice` has a case for. -/
def priceCases : List String :=
  ["free", "paid", "0-50000", "50000-100000", "100000+"]

/-- No price facet is active: no price radio is checked, or the checked radio
carries a value `filterByPrice` has no case for (such as `all`). -/
def priceInactive (dom : Dom) : Bool :=
  match dom.priceChecked with
  | none => true
  | some priceRange => !(priceCases.contains priceRange)

/-- No state and no city is chosen: each select is absent or on its empty
option. -/
def placeInactive (dom : Dom) : Bool :=
  !(truthy dom.stateSelect) && !(truthy dom.citySelect)

/-- The search condition in the words of the specification: the query occurs
in the lower-cased title, description or category, or in the lower-cased
location of a record that has one. -/
def queryOccurs (query : String) (training : Training) : Prop :=
  query.data <:+: (toLowerCase training.title).data ∨
  query.data <:+: (toLowerCase training.description).data ∨
  query.data <:+: (toLowerCase training.category).data ∨
  ∃ location ∈ training.location, query.data <:+: (toLowerCase location).data

instance (query : String) (training : Training) : Decidable (queryOccurs query training) := by
  unfold queryOccurs
  infer_instance

/-- The search condition in the words of the specification, for a lower-casing
`lower`: the query occurs in the lower-cased title, description or category,
or in the lower-cased location of a record that has one. -/
def queryOccursWith (lower : String → String) (query : String) (training : Training) : Prop :=
  query.data <:+: (lower training.title).data ∨
  query.data <:+: (lower training.description).data ∨
  query.data <:+: (lower training.category).data ∨
  ∃ location ∈ training.location, query.data <:+: (lower location).data

instance (lower : String → String) (query : String) (training : Training) :
    Decidable (queryOccursWith lower query training) := by
  unfold queryOccursWith
  infer_instance

/-- The query has at least one character that is not white space. -/
def hasVisibleChar (query : String) : Prop :=
  ∃ c ∈ query.data, isWhiteSpace c = false

/-- A lower-casing of single characters that reaches beyond ASCII: the letters
`A`-`Z` and the capital letters of Latin-1, U+00C0 to U+00DE without the
multiplication sign U+00D7, are moved to the letter 32 places further on. -/
def latinLower (c : Char) : Char :=
  if (65 ≤ c.toNat ∧ c.toNat ≤ 90) ∨ (192 ≤ c.toNat ∧ c.toNat ≤ 222 ∧ c.toNat ≠ 215) then
    Char.ofNat (c.toNat + 32)
  else c

/-- The lower-casing of a string by `latinLower`, character by character. -/
def toLowerCaseLatin (s : String) : String :=
  ⟨s.data.map latinLower⟩

/-- The seed collection followed by a record whose title has an accented
capital letter. -/
def accentedTrainings : List Training :=
  seedTrainings ++
    [{ id := 7, title := "CAFÉ Skills", category := "vocational", type := "physical",
       price := 20000, duration := "2 months", location := some "Lagos", city := some "Lagos",
       state := some "Lagos", image := "", description := "Barista training.",
       featured := false, provider := "Bean House" }]

/-- The page with only the `creative` category checkbox checked. -/
def creativeDom : Dom :=
  { emptyDom with checkedCheckboxes := ["creative"] }

/-- The page with only the `1-3months` duration checkbox checked. -/
def shortCourseDom : Dom :=
  { emptyDom with checkedCheckboxes := ["1-3months"] }

/-- The page with only the `tech` category checkbox checked. -/
def techDom : Dom :=
  { emptyDom with checkedCheckboxes := ["tech"] }

/-! ## Sorting and paging -/

/-- `Array.prototype.sort(compareFn)`.  The sort is stable, and for a
consistent comparator the result is the one stable arrangement in which no
element is followed by a smaller one; it is computed here by insertion, each
element going before the first element of the sorted rest that it does not
exceed (`compareFn(a, b) <= 0`).  For a comparator that is not consistent
ECMAScript leaves the order to the implementation: the list computed here is
then one permutation among those an engine may return, and the ordering
property of `sortTrainings` is stated for consistent comparators only. -/
def sort (compareFn : Training → Training → Int) (l : List Training) : List Training :=
  l.insertionSort (fun a b => compareFn a b ≤ 0)

/-- The comparator of the `Duration` case: `durationA - durationB`, which is
`NaN` when either duration does not parse; `sort` reads `NaN` as `0`.  With a
duration that does not parse the comparator is not consistent (see `sort`). -/
def compareDuration (a b : Training) : Int :=
  match parseInt a.duration, parseInt b.duration with
  | some durationA, some durationB => durationA - durationB
  | _, _ => 0

/-- `sortTrainings(sortBy)`: sorts `this.filteredTrainings` in place. -/
def sortTrainings (sortBy : String) (s : State) : State :=
  if sortBy = "Latest" then
    { s with filteredTrainings := sort (fun a b => b.id - a.id) s.filteredTrainings }
  else if sortBy = "Price: Low to High" then
    { s with filteredTrainings := sort (fun a b => a.price - b.price) s.filteredTrainings }
  else if sortBy = "Price: High to Low" then
    { s with filteredTrainings := sort (fun a b => b.price - a.price) s.filteredTrainings }
  else if sortBy = "Duration" then
    { s with filteredTrainings := sort compareDuration s.filteredTrainings }
  else s

/-- `Array.prototype.slice(start, end)` for integer arguments: a negative
argument counts from the end, and both are clamped to the array. -/
def slice {α : Type} (l : List α) (start stop : Int) : List α :=
  let len : Int := l.length
  let k := if start < 0 then max (len + start) 0 else min start len
  let final := if stop < 0 then max (len + stop) 0 else min stop len
  (l.drop k.toNat).take (final - k).toNat

/-- `Math.ceil(length / itemsPerPage)`; `none` stands for the `Infinity` or
`NaN` that the division gives when `itemsPerPage` is 0, which no page number
exceeds. -/
def ceilPages (length itemsPerPage : Nat) : Option Nat :=
  if itemsPerPage = 0 then none else some ((length + itemsPerPage - 1) / itemsPerPage)

/-- The test `page < 1 || page > totalPages` of `goToPage`. -/
def pageRejected (page : Int) (totalPages : Option Nat) : Bool :=
  decide (page < 1) ||
    (match totalPages with
     | some n => decide (page > (n : Int))
     | none => false)

/-- The local `totalPages` of `goToPage` and `renderPagination`. -/
def totalPages (s : State) : Option Nat :=
  ceilPages s.filteredTrainings.length s.itemsPerPage

/-- `goToPage(page)`. -/
def goToPage (page : Int) (s : State) : State :=
  if pageRejected page (totalPages s) then s else { s with currentPage := page }

/-- The local `pageTrainings` of `renderTrainings()`: the records shown. -/
def pageTrainings (s : State) : List Training :=
  let start := (s.currentPage - 1) * s.itemsPerPage
  let stop := start + s.itemsPerPage
  slice s.filteredTrainings start stop

/-- The leading integer of a record's duration (0 when there is none). -/
def months (t : Training) : Int :=
  (parseInt t.duration).getD 0

end TrainingFilters

/-! # The admin controller (`assets/js/admin-trainings.js`)

The arrays `this.trainings` and `this.filteredTrainings` hold references to the
same record objects: every method that changes the content of `this.trainings`
re-creates `this.filteredTrainings` from it.  The filtered array is therefore
kept as the list of positions its elements have in `this.trainings`, so that a
change made to a record in place (`approveTraining`) is seen through both.

The `localStorage` slot `naijatrainings_data` is kept as the collection its
JSON text parses back to (`none` when `getItem` gives nothing). -/

namespace AdminTrainings

open TrainingFilters (toLowerCase includes isWhiteSpace stripSign isDecimalDigit numberOf slice
  ceilPages pageRejected)

/-! ## Data model -/

/-- The value a record holds as `price`: what `parseFloat` returns, or the
`null` that a price read back from JSON can be.  A finite value is kept as the
exact decimal read (not rounded to the nearest double); a literal too large
for a double is `infinity`, as in JavaScript. -/
inductive Price where
  | nan
  | infinity (negative : Bool)
  | amount (value : ℚ)
  | null
  deriving DecidableEq

/-- One entry of the admin collection; `updatedAt` is absent until the first
update. -/
structure Training where
  id : Int
  title : String
  description : String
  category : String
  type : String
  price : Price
  duration : String
  provider : String
  location : Option String
  image : Option String
  status : String
  featured : Bool
  createdAt : String
  updatedAt : Option String
  deriving DecidableEq

/-- The values of the controls of `#trainingForm` when `saveTraining()` reads
them. -/
structure Form where
  title : String
  description : String
  category : String
  type : String
  price : String
  duration : String
  provider : String
  location : String
  image : String
  status : String
  featured : Bool
  deriving DecidableEq

/-- The object literal `trainingData` of `saveTraining()`. -/
structure TrainingData where
  title : String
  description : String
  category : String
  type : String
  price : Price
  duration : String
  provider : String
  location : Option String
  image : Option String
  status : String
  featured : Bool
  deriving DecidableEq

/-- The fields of an `AdminTrainings` instance, with the storage slot.
`filtered` is `this.filteredTrainings`, as positions in `trainings`. -/
structure State where
  trainings : List Training
  currentPage : Int
  itemsPerPage : Nat
  filtered : List Nat
  editingId : Option Int
  stored : Option (List Training)
  deriving DecidableEq

/-- The records `this.filteredTrainings` holds. -/
def filteredTrainings (s : State) : List Training :=
  s.filtered.filterMap (fun i => s.trainings[i]?)

/-- The positions of a copy `[...trainings]`. -/
def allPositions (trainings : List Training) : List Nat :=
  List.range trainings.length

/-- The positions of `trainings.filter(callback)`. -/
def positionsWhere (callback : Training → Bool) (trainings : List Training) : List Nat :=
  (List.range trainings.length).filter (fun i =>
    match trainings[i]? with
    | some training => callback training
    | none => false)

/-! ## Reading the form -/

/-- The exponent part `e`/`E`, optional sign, digits; 0 when there is none. -/
def exponentOf : List Char → Int
  | [] => 0
  | e :: r =>
    if e = 'e' ∨ e = 'E' then
      let signed := stripSign r
      let digits := signed.2.takeWhile isDecimalDigit
      if digits.isEmpty then 0
      else if signed.1 then -(numberOf 10 digits : Int) else (numberOf 10 digits : Int)
    else 0

/-- The least magnitude that is rounded to `Infinity` when it is converted to a
Number: halfway between the largest double `2^1024 - 2^971` and `2^1024`. -/
def overflowBound : ℚ :=
  2 ^ 1024 - 2 ^ 970

/-- `parseFloat` on the characters of its argument.  A literal whose magnitude
reaches `overflowBound` is `Infinity`; below it the value of the literal is
kept as it is written. -/
def parseFloatChars (cs : List Char) : Price :=
  let signed := stripSign (cs.dropWhile isWhiteSpace)
  let body := signed.2
  if "Infinity".data.isPrefixOf body then Price.infinity signed.1
  else
    let whole := body.takeWhile isDecimalDigit
    let rest := body.dropWhile isDecimalDigit
    let fraction :=
      match rest with
      | c :: r => if c = '.' then r.takeWhile isDecimalDigit else []
      | [] => []
    let tail :=
      match rest with
      | c :: r => if c = '.' then r.dropWhile isDecimalDigit else rest
      | [] => []
    if whole.isEmpty && fraction.isEmpty then Price.nan
    else
      let magnitude : ℚ :=
        (numberOf 10 (whole ++ fraction) : ℚ) / (10 : ℚ) ^ fraction.length *
          (10 : ℚ) ^ exponentOf tail
      if overflowBound ≤ magnitude then Price.infinity signed.1
      else Price.amount (if signed.1 then -magnitude else magnitude)

/-- The global `parseFloat(string)`: leading white space is skipped and the
longest prefix that is a decimal literal (sign, digits, fraction, exponent, or
`Infinity`) is converted; `Price.nan` when there is none. -/
def parseFloat (s : String) : Price :=
  parseFloatChars s.data

/-- The expression `value || null` on a control's value. -/
def orNull (value : String) : Option String :=
  if value = "" then none else some value

/-- The first statement of `saveTraining()`: `trainingData` read from the
form. -/
def readForm (form : Form) : TrainingData :=
  { title := form.title, description := form.description, category := form.category,
    type := form.type, price := parseFloat form.price, duration := form.duration,
    provider := form.provider, location := orNull form.location, image := orNull form.image,
    status := form.status, featured := form.featured }

/-! ## Storage -/

/-- The sample data of `loadTrainings()`; `iso` is `new Date().toISOString()`. -/
def seedTrainings (iso : String) : List Training :=
  [ { id := 1, title := "Full Stack Web Development Bootcamp",
      description := "Learn HTML, CSS, JavaScript, React, Node.js and build real-world projects with job placement support.",
      category := "tech", type := "online", price := Price.amount 150000,
      duration := "6 months", provider := "TechPro Academy", location := none,
      image := some "https://images.unsplash.com/photo-1517694712202-14dd9538aa97?w=800",
      status := "active", featured := true, createdAt := iso, updatedAt := none },
    { id := 2, title := "Digital Marketing Masterclass",
      description := "Master SEO, social media marketing, content creation, and paid advertising.",
      category := "business", type := "online", price := Price.amount 75000,
      duration := "3 months", provider := "Digital Masters NG", location := none,
      image := some "https://images.unsplash.com/photo-1460925895917-afdab827c52f?w=800",
      status := "active", featured := true, createdAt := iso, updatedAt := none },
    { id := 3, title := "Professional Fashion Design",
      description := "Master pattern making, sewing techniques, and fashion illustration.",
      category := "creative", type := "physical", price := Price.amount 80000,
      duration := "4 months", provider := "Style Academy", location := some "Abuja, FCT",
      image := some "https://images.unsplash.com/photo-1558769132-cb1aea1f1c1c?w=800",
      status := "pending", featured := false, createdAt := iso, updatedAt := none } ]

/-- A price as `JSON.parse(JSON.stringify(price))` gives it back: `NaN` and the
infinities are written as `null`. -/
def jsonPrice : Price → Price
  | Price.nan => Price.null
  | Price.infinity _ => Price.null
  | Price.amount value => Price.amount value
  | Price.null => Price.null

/-- A record as it is read back from its JSON text: strings, booleans, `null`
and finite numbers come back as they were. -/
def serialized (training : Training) : Training :=
  { training with price := jsonPrice training.price }

/-- `saveTrainings()`: the JSON text of the collection is written to the
slot. -/
def saveTrainings (s : State) : State :=
  { s with stored := some (s.trainings.map serialized) }

/-- `loadTrainings()`: the stored collection if the slot holds one, the sample
data (written to the slot) otherwise. -/
def loadTrainings (iso : String) (s : State) : State :=
  let loaded :=
    match s.stored with
    | some stored => { s with trainings := stored }
    | none => saveTrainings { s with trainings := seedTrainings iso }
  { loaded with filtered := allPositions loaded.trainings }

/-- The fields as the constructor sets them, over a given storage slot. -/
def constructed (stored : Option (List Training)) : State :=
  { trainings := [], currentPage := 1, itemsPerPage := 10, filtered := [], editingId := none,
    stored := stored }

/-- `init()`: `loadTrainings()`, then rendering. -/
def init (stored : Option (List Training)) (iso : String) : State :=
  loadTrainings iso (constructed stored)

/-! ## Paging and search -/

/-- The local `totalPages` of `goToPage` and `renderPagination`. -/
def totalPages (s : State) : Option Nat :=
  ceilPages (filteredTrainings s).length s.itemsPerPage

/-- `goToPage(page)`. -/
def goToPage (page : Int) (s : State) : State :=
  if pageRejected page (totalPages s) then s else { s with currentPage := page }

/-- The local `pageTrainings` of `renderTrainings()`: the rows shown. -/
def pageTrainings (s : State) : List Training :=
  let start := (s.currentPage - 1) * s.itemsPerPage
  let stop := start + s.itemsPerPage
  slice (filteredTrainings s) start stop

/-- The callback of `this.trainings.filter(...)` in `searchTrainings`, for the
already lower-cased `query`. -/
def searchMatches (query : String) (training : Training) : Bool :=
  includes (toLowerCase training.title) query ||
  includes (toLowerCase training.description) query ||
  includes (toLowerCase training.provider) query

/-- `searchTrainings(query)`. -/
def searchTrainings (query : String) (s : State) : State :=
  let query := toLowerCase query
  { s with filtered := positionsWhere (searchMatches query) s.trainings, currentPage := 1 }

/-- `!value` for the value of an optional select: absent or empty. -/
def unset : Option String → Bool
  | none => true
  | some value => value == ""

/-- `applyFilters()`; `category` and `status` are the values of
`#filterCategory` and `#filterStatus`, `none` when the element is absent. -/
def applyFilters (category status : Option String) (s : State) : State :=
  { s with
    filtered := positionsWhere (fun training =>
      let matchCategory := unset category || some training.category == category
      let matchStatus := unset status || some training.status == status
      matchCategory && matchStatus) s.trainings,
    currentPage := 1 }

/-! ## Create, update, delete, approve -/

/-- `Array.prototype.findIndex`; `none` is the result `-1`. -/
def findIndex (callback : Training → Bool) : List Training → Option Nat
  | [] => none
  | training :: rest =>
    if callback training then some 0 else (findIndex callback rest).map (fun i => i + 1)

/-- The assignment `trainings[index] = update(trainings[index])` for the result
of a `findIndex`/`find`.  With no match the index is `-1`: the write then sets
the property `-1` of the array object and no element changes. -/
def assignAt (trainings : List Training) (index : Option Nat) (update : Training → Training) :
    List Training :=
  match index with
  | some i =>
    match trainings[i]? with
    | some old => trainings.set i (update old)
    | none => trainings
  | none => trainings

/-- The object `{ ...old, ...trainingData, updatedAt: iso }`. -/
def merged (trainingData : TrainingData) (iso : String) (old : Training) : Training :=
  { old with
    title := trainingData.title, description := trainingData.description,
    category := trainingData.category, type := trainingData.type, price := trainingData.price,
    duration := trainingData.duration, provider := trainingData.provider,
    location := trainingData.location, image := trainingData.image,
    status := trainingData.status, featured := trainingData.featured,
    updatedAt := some iso }

/-- The object `{ id: Date.now(), ...trainingData, createdAt: iso }`. -/
def newTraining (now : Int) (trainingData : TrainingData) (iso : String) : Training :=
  { id := now, title := trainingData.title, description := trainingData.description,
    category := trainingData.category, type := trainingData.type, price := trainingData.price,
    duration := trainingData.duration, provider := trainingData.provider,
    location := trainingData.location, image := trainingData.image,
    status := trainingData.status, featured := trainingData.featured,
    createdAt := iso, updatedAt := none }

/-- The test `if (this.editingId)`: the id is neither `null` nor `0`. -/
def editing (s : State) : Option Int :=
  match s.editingId with
  | some id => if id = 0 then none else some id
  | none => none

/-- `saveTraining()`; `form` is what the form holds, `now` is `Date.now()` and
`iso` is `new Date().toISOString()`.  `closeModal()` resets `editingId`. -/
def saveTraining (form : Form) (now : Int) (iso : String) (s : State) : State :=
  let trainingData := readForm form
  let trainings :=
    match editing s with
    | some editingId =>
      assignAt s.trainings (findIndex (fun t => t.id == editingId) s.trainings)
        (merged trainingData iso)
    | none => newTraining now trainingData iso :: s.trainings
  let saved := saveTrainings { s with trainings := trainings }
  { saved with filtered := allPositions trainings, editingId := none }

/-- `editTraining(id)`: a no-op unless a record has the id. -/
def editTraining (id : Int) (s : State) : State :=
  match s.trainings.find? (fun t => t.id == id) with
  | some _ => { s with editingId := some id }
  | none => s

/-- `deleteTraining(id)`; `confirmed` is the answer to the `confirm` dialog. -/
def deleteTraining (confirmed : Bool) (id : Int) (s : State) : State :=
  if confirmed then
    let trainings := s.trainings.filter (fun t => t.id != id)
    let saved := saveTrainings { s with trainings := trainings }
    { saved with filtered := allPositions trainings }
  else s

/-- `approveTraining(id)`: the first record with the id gets the status
`active`, in place, and the collection is saved; a no-op when there is none. -/
def approveTraining (id : Int) (s : State) : State :=
  match findIndex (fun t => t.id == id) s.trainings with
  | some index =>
    let trainings :=
      assignAt s.trainings (some index) (fun training => { training with status := "active" })
    saveTrainings { s with trainings := trainings }
  | none => s

/-- The ids of the collection, in order. -/
def ids (s : State) : List Int :=
  s.trainings.map (fun t => t.id)

/-- A time stamp, as `new Date().toISOString()` gives it. -/
def stamp : String :=
  "2026-11-05T09:00:00.000Z"

/-- A filled-in form. -/
def sampleForm : Form :=
  { title := "Bead Making", description := "Wire work and stringing.", category := "creative",
    type := "physical", price := "25000", duration := "2 months", provider := "Craft Hub",
    location := "Enugu", image := "", status := "pending", featured := false }

/-- A stored record whose id is 0. -/
def zeroRecord : Training :=
  { id := 0, title := "Soap Making", description := "Cold process basics.",
    category := "vocational", type := "physical", price := Price.amount 15000,
    duration := "1 month", provider := "Clean Start", location := some "Jos", image := none,
    status := "active", featured := false, createdAt := "2026-01-10T08:00:00.000Z",
    updatedAt := none }

/-- Is the price a number that is at least 0? -/
def priceNonneg : Price → Bool
  | Price.amount value => decide (0 ≤ value)
  | Price.infinity negative => !negative
  | Price.nan => false
  | Price.null => false

/-- Is the price a finite number? -/
def priceFinite : Price → Bool
  | Price.amount _ => true
  | _ => false

/-- A stored record with the given id. -/
def numbered (id : Int) : Training :=
  { id := id, title := "Tailoring", description := "Cutting and sewing.",
    category := "vocational", type := "physical", price := Price.amount 30000,
    duration := "3 months", provider := "Needle House", location := some "Aba", image := none,
    status := "active", featured := false, createdAt := "2026-02-01T08:00:00.000Z",
    updatedAt := none }

/-- A stored collection of eleven records, ids 1 to 11. -/
def elevenRecords : List Training :=
  (List.range 11).map (fun i => numbered ((i : Int) + 1))

/-- The form with the text `abc` in the price field. -/
def wordPriceForm : Form :=
  { sampleForm with price := "abc" }

/-- The form with `-5` in the price field. -/
def negativePriceForm : Form :=
  { sampleForm with price := "-5" }


end AdminTrainings

/-! # The field validator (`assets/js/form-validation.js`)

A rule returns `true` when the field passes and `false` when it fails (the
message it shows is written to the page and is not part of the result).  A
pattern `/^...$/` is written as a `Regex` and tested against the whole
input. -/

namespace FormValidator

open TrainingFilters (isWhiteSpace isDecimalDigit stripSign digitOf includes)
open AdminTrainings (Price parseFloat)

/-! ## Regular expressions -/

/-- A regular expression over characters, for the patterns of the validator.
`cls` is a character class; `never` matches nothing and `empty` matches the
empty string. -/
inductive Regex where
  | never : Regex
  | empty : Regex
  | cls (accepts : Char → Bool) : Regex
  | alt (r s : Regex) : Regex
  | seq (r s : Regex) : Regex
  | star (r : Regex) : Regex

namespace Regex

/-- Does the expression match the empty string? -/
def nullable : Regex → Bool
  | never => false
  | empty => true
  | cls _ => false
  | alt r s => r.nullable || s.nullable
  | seq r s => r.nullable && s.nullable
  | star _ => true

/-- The expression for what may follow the character `c`. -/
def deriv : Regex → Char → Regex
  | never, _ => never
  | empty, _ => never
  | cls accepts, c => if accepts c then empty else never
  | alt r s, c => alt (r.deriv c) (s.deriv c)
  | seq r s, c =>
    if r.nullable then alt (seq (r.deriv c) s) (s.deriv c) else seq (r.deriv c) s
  | star r, c => seq (r.deriv c) (star r)

/-- `/^r$/.test(input)`: the whole input matches the expression. -/
def test (r : Regex) : List Char → Bool
  | [] => r.nullable
  | c :: rest => (r.deriv c).test rest

/-- The strings an expression matches. -/
def Matches : Regex → List Char → Prop
  | never, _ => False
  | empty, w => w = []
  | cls accepts, w => ∃ c, w = [c] ∧ accepts c = true
  | alt r s, w => r.Matches w ∨ s.Matches w
  | seq r s, w => ∃ x y, w = x ++ y ∧ r.Matches x ∧ s.Matches y
  | star r, w => ∃ parts : List (List Char), w = parts.flatten ∧ ∀ x ∈ parts, r.Matches x

/-- A single character. -/
def chr (c : Char) : Regex :=
  cls (fun d => d == c)

/-- A literal string. -/
def lit : List Char → Regex
  | [] => empty
  | c :: rest => seq (chr c) (lit rest)

/-- `r?`. -/
def opt (r : Regex) : Regex :=
  alt r empty

/-- `r+`. -/
def plus (r : Regex) : Regex :=
  seq r (star r)

/-- `r{n}`. -/
def times : Nat → Regex → Regex
  | 0, _ => empty
  | n + 1, r => seq r (times n r)

/-- `r{0,n}`. -/
def upTo : Nat → Regex → Regex
  | 0, _ => empty
  | n + 1, r => opt (seq r (upTo n r))

/-- `r{m,n}`. -/
def between (m n : Nat) (r : Regex) : Regex :=
  seq (times m r) (upTo (n - m) r)

end Regex

/-! ## Character classes -/

/-- `[a-z]`. -/
def isLower (c : Char) : Bool :=
  decide (97 ≤ c.toNat ∧ c.toNat ≤ 122)

/-- `[a-zA-Z]`. -/
def isLetter (c : Char) : Bool :=
  isLower c || decide (65 ≤ c.toNat ∧ c.toNat ≤ 90)

/-- The class `\w`: `[A-Za-z0-9_]`. -/
def isWord (c : Char) : Bool :=
  isLetter c || isDecimalDigit c || c == '_'

/-- A line terminator, which `.` does not match. -/
def isLineTerminator (c : Char) : Bool :=
  c.toNat == 0x0A || c.toNat == 0x0D || c.toNat == 0x2028 || c.toNat == 0x2029

/-- The class `.`. -/
def isDot (c : Char) : Bool :=
  !isLineTerminator c

/-! ## The patterns -/

/-- The body of `emailRegex`, `[^\s@]+@[^\s@]+\.[^\s@]+`. -/
def emailRegex : Regex :=
  let part := Regex.plus (Regex.cls (fun c => !(isWhiteSpace c || c == '@')))
  Regex.seq part (Regex.seq (Regex.chr '@') (Regex.seq part (Regex.seq (Regex.chr '.') part)))

/-- The body of `phoneRegex`, `(\+234|234|0)[7-9][0-1]\d{8}`. -/
def phoneRegex : Regex :=
  Regex.seq
    (Regex.alt (Regex.lit "+234".data) (Regex.alt (Regex.lit "234".data) (Regex.lit "0".data)))
    (Regex.seq (Regex.cls (fun c => decide (55 ≤ c.toNat ∧ c.toNat ≤ 57)))
      (Regex.seq (Regex.cls (fun c => decide (48 ≤ c.toNat ∧ c.toNat ≤ 49)))
        (Regex.times 8 (Regex.cls isDecimalDigit))))

/-- The body of `urlRegex`,
`(https?:\/\/)?([\da-z\.-]+)\.([a-z\.]{2,6})([\/\w \.-]*)*\/?`. -/
def urlRegex : Regex :=
  Regex.seq
    (Regex.opt
      (Regex.seq (Regex.lit "http".data)
        (Regex.seq (Regex.opt (Regex.chr 's')) (Regex.lit "://".data))))
    (Regex.seq
      (Regex.plus (Regex.cls (fun c => isDecimalDigit c || isLower c || c == '.' || c == '-')))
      (Regex.seq (Regex.chr '.')
        (Regex.seq (Regex.between 2 6 (Regex.cls (fun c => isLower c || c == '.')))
          (Regex.seq
            (Regex.star (Regex.star (Regex.cls
              (fun c => c == '/' || isWord c || c == ' ' || c == '.' || c == '-'))))
            (Regex.opt (Regex.chr '/'))))))

/-- The body of `nameRegex`, `[a-zA-Z\s'-]{2,50}`. -/
def nameRegex : Regex :=
  Regex.between 2 50 (Regex.cls (fun c => isLetter c || isWhiteSpace c || c == '\'' || c == '-'))

/-- A lookahead `(?=r)` at the start of `rest`: some prefix of `rest` matches
`r`. -/
def lookahead (r : Regex) (rest : List Char) : Bool :=
  (Regex.seq r (Regex.star (Regex.cls (fun _ => true)))).test rest

/-- The unanchored test `/(?=.*[a-zA-Z])(?=.*\d)/.test(value)`: at some
position both lookaheads succeed. -/
def passwordRegexTest (value : List Char) : Bool :=
  value.tails.any (fun rest =>
    lookahead (Regex.seq (Regex.star (Regex.cls isDot)) (Regex.cls isLetter)) rest &&
    lookahead (Regex.seq (Regex.star (Regex.cls isDot)) (Regex.cls isDecimalDigit)) rest)

/-! ## String and number primitives -/

/-- `String.prototype.trim`. -/
def trim (s : String) : String :=
  ⟨((s.data.dropWhile isWhiteSpace).reverse.dropWhile isWhiteSpace).reverse⟩

/-- `value.replace(/\s/g, '')`. -/
def removeWhiteSpace (s : String) : String :=
  ⟨s.data.filter (fun c => !isWhiteSpace c)⟩

/-- The `length` of a string: its number of UTF-16 code units. -/
def jsLength (s : String) : Nat :=
  (s.data.map (fun c => if c.toNat < 65536 then 1 else 2)).sum

/-- What follows an exponent part (`e` or `E`, an optional sign, digits) at the
start of the characters; the characters themselves when there is none. -/
def afterExponent : List Char → List Char
  | [] => []
  | e :: r =>
    if e = 'e' ∨ e = 'E' then
      let signed := stripSign r
      if (signed.2.takeWhile isDecimalDigit).isEmpty then e :: r
      else signed.2.dropWhile isDecimalDigit
    else e :: r

/-- What follows the longest unsigned decimal literal (`Infinity`, or digits
with an optional fraction and exponent) at the start of the characters; `none`
when there is no such literal. -/
def afterUnsignedDecimal (body : List Char) : Option (List Char) :=
  if "Infinity".data.isPrefixOf body then some (body.drop 8)
  else
    let whole := body.takeWhile isDecimalDigit
    let rest := body.dropWhile isDecimalDigit
    let fraction :=
      match rest with
      | c :: r => if c = '.' then r.takeWhile isDecimalDigit else []
      | [] => []
    let tail :=
      match rest with
      | c :: r => if c = '.' then r.dropWhile isDecimalDigit else rest
      | [] => []
    if whole.isEmpty && fraction.isEmpty then none else some (afterExponent tail)

/-- Digits of the given radix, at least one. -/
def isDigits (radix : Nat) (digits : List Char) : Bool :=
  !digits.isEmpty && digits.all (fun c =>
    match digitOf c with
    | some d => decide (d < radix)
    | none => false)

/-- `isNaN(value)` for a string: `Number(value)` is `NaN` unless the string,
with white space stripped at both ends, is empty, a decimal literal (with an
optional sign), or a `0x`, `0o` or `0b` integer literal. -/
def isNaN (value : String) : Bool :=
  let t := (trim value).data
  if t.isEmpty then false
  else
    let decimal :=
      match afterUnsignedDecimal (stripSign t).2 with
      | some rest => !rest.isEmpty
      | none => true
    match t with
    | z :: x :: digits =>
      if z = '0' ∧ (x = 'x' ∨ x = 'X') then !isDigits 16 digits
      else if z = '0' ∧ (x = 'o' ∨ x = 'O') then !isDigits 8 digits
      else if z = '0' ∧ (x = 'b' ∨ x = 'B') then !isDigits 2 digits
      else decimal
    | _ => decimal

/-- The comparison `a < b` of two numbers: false when either is `NaN`; `null`
counts as 0. -/
def numLt : Price → Price → Bool
  | Price.nan, _ => false
  | _, Price.nan => false
  | Price.infinity negative, Price.infinity other => negative && !other
  | Price.infinity negative, _ => negative
  | _, Price.infinity negative => !negative
  | Price.amount a, Price.amount b => decide (a < b)
  | Price.amount a, Price.null => decide (a < 0)
  | Price.null, Price.amount b => decide (0 < b)
  | Price.null, Price.null => false

/-- The comparison `a >= b` of two numbers: false when either is `NaN`. -/
def numGe (a b : Price) : Bool :=
  !(a == Price.nan) && !(b == Price.nan) && !numLt a b

/-! ## The rules -/

/-- A form control as the rules read it: `min` and `max` are the attributes,
`none` when absent. -/
structure Field where
  value : String
  type : String
  name : String
  id : String
  required : Bool
  min : Option String
  max : Option String
  deriving DecidableEq

/-- What `validatePassword` reads from the document: the `value` of the first
`input[name="confirm_password"], input[name="password_confirm"]`, `none` when
there is no such input. -/
structure Document where
  confirmField : Option String
  deriving DecidableEq

/-- `validateEmail(field)`. -/
def validateEmail (field : Field) : Bool :=
  let value := trim field.value
  if value != "" && !emailRegex.test value.data then false else true

/-- `validatePhone(field)`. -/
def validatePhone (field : Field) : Bool :=
  let value := trim field.value
  if value != "" && !phoneRegex.test (removeWhiteSpace value).data then false else true

/-- `validateURL(field)`. -/
def validateURL (field : Field) : Bool :=
  let value := trim field.value
  if value != "" && !urlRegex.test value.data then false else true

/-- Truthiness of an attribute value: present and not empty. -/
def present : Option String → Bool
  | none => false
  | some v => v != ""

/-- `validateNumber(field)`. -/
def validateNumber (field : Field) : Bool :=
  let value := trim field.value
  if value != "" && isNaN value then false
  else if present field.min && numLt (parseFloat value) (parseFloat (field.min.getD "")) then
    false
  else if present field.max && numLt (parseFloat (field.max.getD "")) (parseFloat value) then
    false
  else true

/-- `validateName(field)`. -/
def validateName (field : Field) : Bool :=
  let value := trim field.value
  if value != "" && !nameRegex.test value.data then false else true

/-- `validatePassword(field)`. -/
def validatePassword (document : Document) (field : Field) : Bool :=
  let value := trim field.value
  if value != "" && decide (jsLength value < 8) then false
  else if value != "" && !passwordRegexTest value.data then false
  else
    match document.confirmField with
    | some confirmValue => if confirmValue != "" && value != confirmValue then false else true
    | none => true

/-- `validateField(field)`. -/
def validateField (document : Document) (field : Field) : Bool :=
  let value := trim field.value
  let type := field.type
  let name := if field.name != "" then field.name else field.id
  if field.required && value == "" then false
  else if type = "email" then validateEmail field
  else if type = "tel" then validatePhone field
  else if type = "url" then validateURL field
  else if type = "number" then validateNumber field
  else if name != "" && includes name "name" then validateName field
  else if name != "" && includes name "password" then validatePassword document field
  else true

/-- The rule registered for the field `price` by `addCustomValidation`:
`!value || (!isNaN(value) && parseFloat(value) >= 0)`. -/
def priceRule (value : String) : Bool :=
  value == "" || (!isNaN value && numGe (parseFloat value) (Price.amount 0))

/-- A text input with the given value, type and name, not required. -/
def input (value type name : String) : Field :=
  { value := value, type := type, name := name, id := "", required := false, min := none,
    max := none }

/-- Is the field handled by the password rule?  Its type is none of `email`,
`tel`, `url`, `number`, and its name (or, without a name, its id) contains
`password` and does not contain `name`. -/
def passwordRouted (field : Field) : Bool :=
  let name := if field.name != "" then field.name else field.id
  !(field.type == "email" || field.type == "tel" || field.type == "url" ||
      field.type == "number") &&
    !includes name "name" && includes name "password"

end FormValidator

namespace TrainingFilters

/-! ## Character and string lemmas -/

theorem toLower_cases (c : Char) :
    Char.toLower c = c ∨
      (65 ≤ c.toNat ∧ c.toNat ≤ 90 ∧ (Char.toLower c).toNat = c.toNat + 32) := by
  unfold Char.toLower
  by_cases h : c.toNat ≥ 65 ∧ c.toNat ≤ 90
  · right
    refine ⟨h.1, h.2, ?_⟩
    simp only [h, and_self, if_true]
    obtain ⟨h1, h2⟩ := h
    generalize c.toNat = n at *
    interval_cases n <;> rfl
  · left
    simp [h]

theorem char_eq_of_toNat (c : Char) (n : Nat) (h : c.toNat = n) : c = Char.ofNat n := by
  rw [← h, Char.ofNat_toNat]

theorem toLower_eq_iff (c k : Char) (hupper : ¬ (65 ≤ k.toNat ∧ k.toNat ≤ 90))
    (hlower : ¬ (97 ≤ k.toNat ∧ k.toNat ≤ 122)) : Char.toLower c = k ↔ c = k := by
  rcases toLower_cases c with h | ⟨h1, h2, h3⟩
  · rw [h]
  · constructor
    · intro h; rw [h] at h3; omega
    · intro h; rw [h] at h1 h2; omega

theorem digitOf_toLower (c : Char) : digitOf (Char.toLower c) = digitOf c := by
  rcases toLower_cases c with h | ⟨h1, h2, h3⟩
  · rw [h]
  · simp only [digitOf, h3]
    have e1 : ¬ (48 ≤ c.toNat + 32 ∧ c.toNat + 32 ≤ 57) := by omega
    have e2 : (97 ≤ c.toNat + 32 ∧ c.toNat + 32 ≤ 122) := by omega
    have e3 : ¬ (48 ≤ c.toNat ∧ c.toNat ≤ 57) := by omega
    have e4 : ¬ (97 ≤ c.toNat ∧ c.toNat ≤ 122) := by omega
    have e5 : (65 ≤ c.toNat ∧ c.toNat ≤ 90) := by omega
    rw [if_neg e1, if_pos e2, if_neg e3, if_neg e4, if_pos e5]
    congr 1

theorem isRadixDigit_toLower (radix : Nat) (c : Char) :
    isRadixDigit radix (Char.toLower c) = isRadixDigit radix c := by
  simp only [isRadixDigit, digitOf_toLower]

theorem isWhiteSpace_toLower (c : Char) : isWhiteSpace (Char.toLower c) = isWhiteSpace c := by
  rcases toLower_cases c with h | ⟨h1, h2, h3⟩
  · rw [h]
  · have hc : isWhiteSpace c = false := by
      simp only [isWhiteSpace, Bool.or_eq_false_iff, beq_eq_false_iff_ne, ne_eq,
        Bool.and_eq_false_imp, decide_eq_true_eq, decide_eq_false_iff_not]
      omega
    have hl : isWhiteSpace (Char.toLower c) = false := by
      simp only [isWhiteSpace, h3, Bool.or_eq_false_iff, beq_eq_false_iff_ne, ne_eq,
        Bool.and_eq_false_imp, decide_eq_true_eq, decide_eq_false_iff_not]
      omega
    rw [hc, hl]

theorem dropWhile_isWhiteSpace_toLower (l : List Char) :
    (l.map Char.toLower).dropWhile isWhiteSpace
      = (l.dropWhile isWhiteSpace).map Char.toLower := by
  induction l with
  | nil => rfl
  | cons c l ih =>
    simp only [List.map_cons, List.dropWhile_cons, isWhiteSpace_toLower]
    cases isWhiteSpace c
    · rfl
    · simpa using ih

theorem takeWhile_isRadixDigit_toLower (radix : Nat) (l : List Char) :
    (l.map Char.toLower).takeWhile (isRadixDigit radix)
      = (l.takeWhile (isRadixDigit radix)).map Char.toLower := by
  induction l with
  | nil => rfl
  | cons c l ih =>
    simp only [List.map_cons, List.takeWhile_cons, isRadixDigit_toLower]
    cases isRadixDigit radix c
    · rfl
    · simpa using ih

theorem numberOf_toLower (radix : Nat) (z : List Char) :
    numberOf radix (z.map Char.toLower) = numberOf radix z := by
  simp only [numberOf, List.foldl_map, digitOf_toLower]

theorem stripSign_toLower (l : List Char) :
    stripSign (l.map Char.toLower) = ((stripSign l).1, (stripSign l).2.map Char.toLower) := by
  cases l with
  | nil => rfl
  | cons c r =>
    have hm : Char.toLower c = '-' ↔ c = '-' := toLower_eq_iff c _ (by decide) (by decide)
    have hp : Char.toLower c = '+' ↔ c = '+' := toLower_eq_iff c _ (by decide) (by decide)
    simp only [List.map_cons, stripSign, hm, hp]
    split_ifs <;> rfl

theorem toLower_eq_x_iff (d : Char) :
    (Char.toLower d = 'x' ∨ Char.toLower d = 'X') ↔ (d = 'x' ∨ d = 'X') := by
  have hx : ('x' : Char).toNat = 120 := by decide
  have hX : ('X' : Char).toNat = 88 := by decide
  rcases toLower_cases d with h | ⟨h1, h2, h3⟩
  · rw [h]
  · constructor
    · rintro (h | h)
      · rw [h, hx] at h3
        exact Or.inr (char_eq_of_toNat d 88 (by omega))
      · rw [h, hX] at h3; omega
    · rintro (h | h)
      · rw [h, hx] at h1 h2; omega
      · left; subst h; decide

theorem stripHex_toLower (l : List Char) :
    stripHex (l.map Char.toLower) = ((stripHex l).1, (stripHex l).2.map Char.toLower) := by
  match l with
  | [] => rfl
  | [c] => rfl
  | c :: d :: r =>
    have h0 : Char.toLower c = '0' ↔ c = '0' := toLower_eq_iff c _ (by decide) (by decide)
    simp only [List.map_cons, stripHex, h0, toLower_eq_x_iff]
    split_ifs <;> rfl

theorem parseIntChars_toLower (cs : List Char) :
    parseIntChars (cs.map Char.toLower) = parseIntChars cs := by
  simp only [parseIntChars, dropWhile_isWhiteSpace_toLower, stripSign_toLower, stripHex_toLower,
    takeWhile_isRadixDigit_toLower, numberOf_toLower, List.isEmpty_eq_true, List.map_eq_nil_iff]

/-- Lower-casing does not change what `parseInt` reads. -/
theorem parseInt_toLowerCase (s : String) : parseInt (toLowerCase s) = parseInt s :=
  parseIntChars_toLower s.data

theorem isRadixDigit_ten (c : Char) : isRadixDigit 10 c = isDecimalDigit c := by
  simp only [isRadixDigit, digitOf, isDecimalDigit]
  by_cases h : 48 ≤ c.toNat ∧ c.toNat ≤ 57
  · simp only [h, and_self, if_true, decide_True, decide_eq_true_eq]
    omega
  · simp only [h, if_false, decide_False]
    split_ifs with h2 h3
    · simp; omega
    · simp; omega
    · rfl

theorem isWhiteSpace_of_isDecimalDigit {c : Char} (h : isDecimalDigit c = true) :
    isWhiteSpace c = false := by
  simp only [isDecimalDigit, decide_eq_true_eq] at h
  simp only [isWhiteSpace, Bool.or_eq_false_iff, beq_eq_false_iff_ne, ne_eq,
    Bool.and_eq_false_imp, decide_eq_true_eq, decide_eq_false_iff_not]
  omega

/-- A string that starts with a decimal integer and not with `0x`/`0X` is
parsed by `parseInt` to that integer. -/
theorem parseInt_of_leadingDecimal {s : String} {m : Nat}
    (hm : leadingDecimal s = some m) (hx : hexPrefixed s = false) :
    parseInt s = some (m : Int) := by
  obtain ⟨cs⟩ := s
  simp only [leadingDecimal, hexPrefixed, parseInt] at *
  cases cs with
  | nil => simp at hm
  | cons c r =>
    have hc : isDecimalDigit c = true := by
      by_contra hc
      simp [List.takeWhile_cons, hc] at hm
    have hcn : 48 ≤ c.toNat ∧ c.toNat ≤ 57 := by
      simpa [isDecimalDigit] using hc
    have hminus : c ≠ '-' := by
      intro h; rw [h] at hcn; revert hcn; decide
    have hplus : c ≠ '+' := by
      intro h; rw [h] at hcn; revert hcn; decide
    have hne : ((c :: r).takeWhile isDecimalDigit).isEmpty = false := by
      simp [List.takeWhile_cons, hc]
    have hstrip : stripHex (c :: r) = (10, c :: r) := by
      cases r with
      | nil => rfl
      | cons d r2 =>
        have hx2 : ¬ (c = '0' ∧ (d = 'x' ∨ d = 'X')) := by simpa using hx
        simp only [stripHex, if_neg hx2]
    have hdrop : (c :: r).dropWhile isWhiteSpace = c :: r := by
      simp [List.dropWhile_cons, isWhiteSpace_of_isDecimalDigit hc]
    have hsign : stripSign (c :: r) = (false, c :: r) := by
      simp [stripSign, hminus, hplus]
    have hfun : isRadixDigit 10 = isDecimalDigit := funext isRadixDigit_ten
    simp only [parseIntChars]
    rw [hdrop, hsign]
    simp only [hstrip, hfun, hne]
    rw [hne] at hm
    simp only [Bool.false_eq_true, if_false, Option.some.injEq] at hm
    simp [hm]

/-! ## Price filter -/

/-- C1: `filterByPrice` returns exactly the records that satisfy the predicate
of the price option, in their original order: `free` keeps price = 0, `paid`
keeps price > 0, `0-50000` keeps price <= 50000, `50000-100000` keeps
50000 < price <= 100000, `100000+` keeps price > 100000, and every other
option value (such as `all`) returns the list unchanged. -/
theorem filterByPrice_exact (trainings : List Training) (priceRange : String) :
    filterByPrice trainings "free" = trainings.filter (fun t => decide (t.price = 0)) ∧
    filterByPrice trainings "paid" = trainings.filter (fun t => decide (0 < t.price)) ∧
    filterByPrice trainings "0-50000" = trainings.filter (fun t => decide (t.price ≤ 50000)) ∧
    filterByPrice trainings "50000-100000" =
      trainings.filter (fun t => decide (50000 < t.price ∧ t.price ≤ 100000)) ∧
    filterByPrice trainings "100000+" = trainings.filter (fun t => decide (100000 < t.price)) ∧
    filterByPrice trainings "all" = trainings ∧
    (priceRange ∉ ["free", "paid", "0-50000", "50000-100000", "100000+"] →
      filterByPrice trainings priceRange = trainings) := by
  refine ⟨?_, ?_, ?_, ?_, ?_, ?_, ?_⟩
  · simp only [filterByPrice, if_true]
    exact List.filter_congr (fun t _ => rfl)
  · simp [filterByPrice]
  · simp [filterByPrice]
  · simp [filterByPrice]
  · simp [filterByPrice]
  · simp [filterByPrice]
  · intro h
    simp only [List.mem_cons, List.mem_singleton, List.not_mem_nil, or_false, not_or] at h
    obtain ⟨h1, h2, h3, h4, h5⟩ := h
    simp [filterByPrice, h1, h2, h3, h4, h5]

/-- Witness of `filterByPrice_exact`: an option outside the five named ones
leaves the seed collection unchanged. -/
theorem filterByPrice_exact_witness :
    "cheapest" ∉ ["free", "paid", "0-50000", "50000-100000", "100000+"] ∧
      filterByPrice seedTrainings "cheapest" = seedTrainings :=
  ⟨by decide, (filterByPrice_exact seedTrainings "cheapest").2.2.2.2.2.2 (by decide)⟩

theorem mem_filterByPrice_iff {trainings : List Training} {t : Training} (ht : t ∈ trainings)
    (option : String) (hopt : option ∈ priceOptions) :
    t ∈ filterByPrice trainings option ↔
      (option = "free" ∧ t.price = 0) ∨ (option = "0-50000" ∧ t.price ≤ 50000) ∨
      (option = "50000-100000" ∧ 50000 < t.price ∧ t.price ≤ 100000) ∨
      (option = "100000+" ∧ 100000 < t.price) := by
  simp only [priceOptions, List.mem_cons, List.mem_singleton, List.not_mem_nil, or_false] at hopt
  rcases hopt with h | h | h | h <;> subst h <;> simp [filterByPrice, ht]

/-- C2, refuted as stated: a record of price 0 is kept by two of the four
options, `free` and `0-50000`. -/
theorem price_options_overlap_at_zero :
    0 ≤ (sample 0 "2 months").price ∧
    "free" ∈ priceOptions ∧ "0-50000" ∈ priceOptions ∧ "free" ≠ "0-50000" ∧
    sample 0 "2 months" ∈ filterByPrice [sample 0 "2 months"] "free" ∧
    sample 0 "2 months" ∈ filterByPrice [sample 0 "2 months"] "0-50000" := by
  decide

/-- C2, amended: the options `free`, `0-50000`, `50000-100000` and `100000+`
cover all non-negative prices (every record with price >= 0 is kept by at
least one of them); a record with price > 0 is kept by exactly one of them;
a record with price 0 is kept by exactly the two options `free` and
`0-50000`. -/
theorem price_options_cover (trainings : List Training) (t : Training)
    (ht : t ∈ trainings) (_hprice : 0 ≤ t.price) :
    (∃ option ∈ priceOptions, t ∈ filterByPrice trainings option) ∧
    (0 < t.price → ∃! option, option ∈ priceOptions ∧ t ∈ filterByPrice trainings option) ∧
    (t.price = 0 → ∀ option ∈ priceOptions,
      (t ∈ filterByPrice trainings option ↔ option = "free" ∨ option = "0-50000")) := by
  have hmem : ∀ o, o ∈ priceOptions ↔
      o = "free" ∨ o = "0-50000" ∨ o = "50000-100000" ∨ o = "100000+" := by
    intro o; simp [priceOptions]
  refine ⟨?_, ?_, ?_⟩
  · by_cases h1 : t.price ≤ 50000
    · exact ⟨"0-50000", by decide, (mem_filterByPrice_iff ht _ (by decide)).2 (by simp [h1])⟩
    · by_cases h2 : t.price ≤ 100000
      · exact ⟨"50000-100000", by decide,
          (mem_filterByPrice_iff ht _ (by decide)).2 (by simp; omega)⟩
      · exact ⟨"100000+", by decide, (mem_filterByPrice_iff ht _ (by decide)).2 (by simp; omega)⟩
  · intro hpos
    by_cases h1 : t.price ≤ 50000
    · refine ⟨"0-50000", ⟨by decide, (mem_filterByPrice_iff ht _ (by decide)).2 (by simp [h1])⟩, ?_⟩
      rintro o ⟨ho, hk⟩
      rcases (mem_filterByPrice_iff ht o ho).1 hk with h | h | h | h
      · omega
      · exact h.1
      · omega
      · omega
    · by_cases h2 : t.price ≤ 100000
      · refine ⟨"50000-100000", ⟨by decide,
          (mem_filterByPrice_iff ht _ (by decide)).2 (by simp; omega)⟩, ?_⟩
        rintro o ⟨ho, hk⟩
        rcases (mem_filterByPrice_iff ht o ho).1 hk with h | h | h | h
        · omega
        · omega
        · exact h.1
        · omega
      · refine ⟨"100000+", ⟨by decide,
          (mem_filterByPrice_iff ht _ (by decide)).2 (by simp; omega)⟩, ?_⟩
        rintro o ⟨ho, hk⟩
        rcases (mem_filterByPrice_iff ht o ho).1 hk with h | h | h | h
        · omega
        · omega
        · omega
        · exact h.1
  · intro hzero o ho
    rw [mem_filterByPrice_iff ht o ho]
    constructor
    · rintro (h | h | h | h)
      · exact Or.inl h.1
      · exact Or.inr h.1
      · omega
      · omega
    · rintro (h | h)
      · exact Or.inl ⟨h, hzero⟩
      · exact Or.inr (Or.inl ⟨h, by omega⟩)

/-- Witness of `price_options_cover`: a record of price 75000. -/
theorem price_options_cover_witness :
    (∃ option ∈ priceOptions, sample 75000 "3 months" ∈
        filterByPrice [sample 75000 "3 months"] option) ∧
    (0 < (sample 75000 "3 months").price → ∃! option, option ∈ priceOptions ∧
        sample 75000 "3 months" ∈ filterByPrice [sample 75000 "3 months"] option) ∧
    ((sample 75000 "3 months").price = 0 → ∀ option ∈ priceOptions,
      (sample 75000 "3 months" ∈ filterByPrice [sample 75000 "3 months"] option ↔
        option = "free" ∨ option = "0-50000")) :=
  price_options_cover [sample 75000 "3 months"] (sample 75000 "3 months")
    (List.mem_singleton_self _) (by decide)

/-! ## Duration filter -/

theorem includesChars_iff (s sub : List Char) : includesChars s sub = true ↔ sub <:+: s := by
  induction s with
  | nil => simp [includesChars, List.isEmpty_iff]
  | cons c rest ih =>
    simp only [includesChars, Bool.or_eq_true, List.isPrefixOf_iff_prefix, ih,
      List.infix_cons_iff]

/-- `includes` is the substring relation on the characters. -/
theorem includes_iff (s sub : String) : includes s sub = true ↔ sub.data <:+: s.data :=
  includesChars_iff s.data sub.data

theorem mem_filterByDuration {trainings : List Training} {t : Training} (ht : t ∈ trainings)
    (sel : List String) :
    t ∈ filterByDuration trainings sel ↔ durationKept sel t = true := by
  simp [filterByDuration, List.mem_filter, ht]

/-- C3, refuted as stated: the duration `0x10 months` starts with the decimal
integer 0, which is not above 6, yet `parseInt` reads the string as the
hexadecimal 16 and the bucket `6months` keeps the record. -/
theorem hex_duration_in_top_bucket :
    leadingDecimal (sample 80000 "0x10 months").duration = some 0 ∧
    ¬ (6 < 0) ∧
    parseInt (toLowerCase (sample 80000 "0x10 months").duration) = some 16 ∧
    sample 80000 "0x10 months" ∈
      filterByDuration [sample 80000 "0x10 months"] ["6months"] := by
  decide

/-- C3, amended: for every record whose duration starts with a decimal integer
`m` and not with the hexadecimal marker `0x`/`0X`, `filterByDuration` keeps it
under the single bucket `1-3months` iff 1 <= m <= 3, under `3-6months` iff
3 < m <= 6 and under `6months` iff m > 6; a record with duration `3 months`
matches `1-3months` and does not match `3-6months`. -/
theorem duration_bucket_boundaries (trainings : List Training) (t : Training)
    (ht : t ∈ trainings) :
    (∀ m : Nat, leadingDecimal t.duration = some m → hexPrefixed t.duration = false →
      (t ∈ filterByDuration trainings ["1-3months"] ↔ 1 ≤ m ∧ m ≤ 3) ∧
      (t ∈ filterByDuration trainings ["3-6months"] ↔ 3 < m ∧ m ≤ 6) ∧
      (t ∈ filterByDuration trainings ["6months"] ↔ 6 < m)) ∧
    (t.duration = "3 months" →
      t ∈ filterByDuration trainings ["1-3months"] ∧
      t ∉ filterByDuration trainings ["3-6months"]) := by
  have key : ∀ m : Nat, leadingDecimal t.duration = some m → hexPrefixed t.duration = false →
      (t ∈ filterByDuration trainings ["1-3months"] ↔ 1 ≤ m ∧ m ≤ 3) ∧
      (t ∈ filterByDuration trainings ["3-6months"] ↔ 3 < m ∧ m ≤ 6) ∧
      (t ∈ filterByDuration trainings ["6months"] ↔ 6 < m) := by
    intro m hm hx
    have hp : parseInt (toLowerCase t.duration) = some (m : Int) := by
      rw [parseInt_toLowerCase]; exact parseInt_of_leadingDecimal hm hx
    simp only [mem_filterByDuration ht, durationKept, List.any_cons, List.any_nil,
      Bool.or_false, durationMatches, hp]
    refine ⟨?_, ?_, ?_⟩
    · simp
    · simp
    · simp
  refine ⟨key, ?_⟩
  intro hd
  have h3 := key 3 (by rw [hd]; decide) (by rw [hd]; decide)
  refine ⟨h3.1.2 (by decide), fun h => ?_⟩
  have := h3.2.1.1 h
  omega

/-- Witness of `duration_bucket_boundaries`: the duration `3 months`, whose
leading integer is 3. -/
theorem duration_bucket_boundaries_witness :
    ((sample 75000 "3 months" ∈ filterByDuration [sample 75000 "3 months"] ["1-3months"]
        ↔ 1 ≤ 3 ∧ 3 ≤ 3) ∧
      (sample 75000 "3 months" ∈ filterByDuration [sample 75000 "3 months"] ["3-6months"]
        ↔ 3 < 3 ∧ 3 ≤ 6) ∧
      (sample 75000 "3 months" ∈ filterByDuration [sample 75000 "3 months"] ["6months"]
        ↔ 6 < 3)) ∧
    (sample 75000 "3 months" ∈ filterByDuration [sample 75000 "3 months"] ["1-3months"] ∧
      sample 75000 "3 months" ∉ filterByDuration [sample 75000 "3 months"] ["3-6months"]) :=
  ⟨(duration_bucket_boundaries [sample 75000 "3 months"] (sample 75000 "3 months")
      (List.mem_singleton_self _)).1 3 (by decide) (by decide),
   (duration_bucket_boundaries [sample 75000 "3 months"] (sample 75000 "3 months")
      (List.mem_singleton_self _)).2 rfl⟩

/-- C4, refuted as stated: under the selection `1month` the record with
duration `2 weeks` is kept although its parsed count 2 is not at most 1, and
the record with duration `few weeks`, which has no leading integer, is kept
too. -/
theorem one_month_bucket_ignores_count :
    parseInt (sample 20000 "2 weeks").duration = some 2 ∧
    countInBucket "1month" 2 = false ∧
    sample 20000 "2 weeks" ∈ filterByDuration [sample 20000 "2 weeks"] ["1month"] ∧
    parseInt (sample 20000 "few weeks").duration = none ∧
    sample 20000 "few weeks" ∈ filterByDuration [sample 20000 "few weeks"] ["1month"] := by
  decide

/-- C4, amended: for the buckets `1-3months`, `3-6months` and `6months`,
membership depends only on the integer `parseInt` reads at the start of the
duration: a record is kept iff that integer falls in at least one selected one
of these buckets, or `1month` is selected and the lower-cased duration contains
`1 month` or `weeks` (a substring test, not a test on the count); a record
whose duration has no leading integer is kept by no selection without
`1month`. -/
theorem duration_membership (trainings : List Training) (sel : List String) (t : Training)
    (ht : t ∈ trainings) :
    (t ∈ filterByDuration trainings sel ↔
      ("1month" ∈ sel ∧ ("1 month".data <:+: (toLowerCase t.duration).data ∨
          "weeks".data <:+: (toLowerCase t.duration).data)) ∨
      ∃ m : Int, parseInt t.duration = some m ∧
        (("1-3months" ∈ sel ∧ 1 ≤ m ∧ m ≤ 3) ∨ ("3-6months" ∈ sel ∧ 3 < m ∧ m ≤ 6) ∨
          ("6months" ∈ sel ∧ 6 < m))) ∧
    (parseInt t.duration = none → "1month" ∉ sel → t ∉ filterByDuration trainings sel) := by
  have key : t ∈ filterByDuration trainings sel ↔
      ("1month" ∈ sel ∧ ("1 month".data <:+: (toLowerCase t.duration).data ∨
          "weeks".data <:+: (toLowerCase t.duration).data)) ∨
      ∃ m : Int, parseInt t.duration = some m ∧
        (("1-3months" ∈ sel ∧ 1 ≤ m ∧ m ≤ 3) ∨ ("3-6months" ∈ sel ∧ 3 < m ∧ m ≤ 6) ∨
          ("6months" ∈ sel ∧ 6 < m)) := by
    rw [mem_filterByDuration ht, durationKept, List.any_eq_true,
      ← includes_iff, ← includes_iff]
    constructor
    · rintro ⟨b, hb, hmatch⟩
      unfold durationMatches at hmatch
      rw [parseInt_toLowerCase] at hmatch
      split_ifs at hmatch with h1 h2 h3 h4
      · subst h1
        left
        exact ⟨hb, by simpa using hmatch⟩
      · subst h2
        right
        cases hp : parseInt t.duration with
        | none => simp [hp] at hmatch
        | some m =>
          simp only [hp, Bool.and_eq_true, decide_eq_true_eq] at hmatch
          exact ⟨m, rfl, Or.inl ⟨hb, hmatch.1, hmatch.2⟩⟩
      · subst h3
        right
        cases hp : parseInt t.duration with
        | none => simp [hp] at hmatch
        | some m =>
          simp only [hp, Bool.and_eq_true, decide_eq_true_eq] at hmatch
          exact ⟨m, rfl, Or.inr (Or.inl ⟨hb, hmatch.1, hmatch.2⟩)⟩
      · subst h4
        right
        cases hp : parseInt t.duration with
        | none => simp [hp] at hmatch
        | some m =>
          simp only [hp, decide_eq_true_eq] at hmatch
          exact ⟨m, rfl, Or.inr (Or.inr ⟨hb, hmatch⟩)⟩
    · rintro (⟨hb, hsub⟩ | ⟨m, hp, hcase⟩)
      · exact ⟨"1month", hb, by simpa [durationMatches] using hsub⟩
      · rcases hcase with ⟨hb, h1, h2⟩ | ⟨hb, h1, h2⟩ | ⟨hb, h1⟩
        · exact ⟨"1-3months", hb, by simp [durationMatches, parseInt_toLowerCase, hp, h1, h2]⟩
        · exact ⟨"3-6months", hb, by simp [durationMatches, parseInt_toLowerCase, hp, h1, h2]⟩
        · exact ⟨"6months", hb, by simp [durationMatches, parseInt_toLowerCase, hp, h1]⟩
  refine ⟨key, ?_⟩
  intro hnone hsel hmem
  rcases key.1 hmem with ⟨hb, _⟩ | ⟨m, hp, _⟩
  · exact hsel hb
  · rw [hnone] at hp
    exact Option.noConfusion hp

/-- Witness of `duration_membership`: `months only` has no leading integer
and the selection of the three numeric buckets does not keep it. -/
theorem duration_membership_witness :
    sample 20000 "months only" ∉
      filterByDuration [sample 20000 "months only"] ["1-3months", "3-6months", "6months"] :=
  (duration_membership [sample 20000 "months only"] ["1-3months", "3-6months", "6months"]
    (sample 20000 "months only") (List.mem_singleton_self _)).2 (by decide) (by decide)

/-! ## The facet pipeline -/

theorem filterByPrice_of_not_case (trainings : List Training) (priceRange : String)
    (h : priceCases.contains priceRange = false) :
    filterByPrice trainings priceRange = trainings := by
  simp only [priceCases, List.contains_eq_any_beq, List.any_cons, List.any_nil, Bool.or_false,
    Bool.or_eq_false_iff, beq_eq_false_iff_ne, ne_eq] at h
  obtain ⟨h1, h2, h3, h4, h5⟩ := h
  simp [filterByPrice, h1, h2, h3, h4, h5]

theorem truthy_eq_false {v : Option String} (h : truthy v = false) : v = none ∨ v = some "" := by
  cases v with
  | none => exact Or.inl rfl
  | some x =>
    right
    simpa [truthy] using h

/-- With no price, duration, state or city facet active, `facetFilter` is the
category step alone. -/
theorem facetFilter_category_only (dom : Dom) (trainings : List Training)
    (hdur : getSelectedDurations dom = []) (hprice : priceInactive dom = true)
    (hplace : placeInactive dom = true) :
    facetFilter dom trainings =
      if (getSelectedCategories dom).length > 0 then
        trainings.filter (fun training => (getSelectedCategories dom).contains training.category)
      else trainings := by
  simp only [placeInactive, Bool.and_eq_true, Bool.not_eq_true'] at hplace
  obtain ⟨hstate, hcity⟩ := hplace
  have hp : ∀ l : List Training,
      (match getSelectedPriceRange dom with
        | some priceRange => if (priceRange != "") = true then filterByPrice l priceRange else l
        | none => l) = l := by
    intro l
    simp only [getSelectedPriceRange]
    cases hpc : dom.priceChecked with
    | none => rfl
    | some p =>
      simp only [priceInactive, hpc, Bool.not_eq_true'] at hprice
      simp [filterByPrice_of_not_case l p hprice]
  have hs : ∀ l : List Training,
      (match getSelectedState dom with
        | some selectedState =>
          if (selectedState != "") = true then
            l.filter (fun training => training.state == some selectedState)
          else l
        | none => l) = l := by
    intro l
    simp only [getSelectedState]
    rcases truthy_eq_false hstate with h | h <;> simp [h]
  have hc : ∀ l : List Training,
      (match getSelectedCity dom with
        | some selectedCity =>
          if (selectedCity != "") = true then
            l.filter (fun training => training.city == some selectedCity)
          else l
        | none => l) = l := by
    intro l
    simp only [getSelectedCity]
    rcases truthy_eq_false hcity with h | h <;> simp [h]
  simp only [facetFilter, hdur, List.length_nil, gt_iff_lt, lt_self_iff_false, if_false, hp, hs,
    hc]

/-- C5: with a non-empty selection of category values and no other facet
active, `applyFilters` sets the filtered list to exactly the records whose
category is one of the selected values, in original order; on the six seed
records the selection `creative` gives the records 3, 5, 6 in that order and a
result count of 3. -/
theorem applyFilters_categories (dom : Dom) (s : State)
    (hcat : getSelectedCategories dom ≠ []) (hdur : getSelectedDurations dom = [])
    (hprice : priceInactive dom = true) (hplace : placeInactive dom = true) :
    (applyFilters dom s).filteredTrainings =
      s.trainings.filter (fun t => decide (t.category ∈ getSelectedCategories dom)) ∧
    ((applyFilters creativeDom (loadTrainings constructed)).filteredTrainings.map
      (fun t => t.id) = [3, 5, 6] ∧
     resultsCount (applyFilters creativeDom (loadTrainings constructed)) = 3) := by
  refine ⟨?_, by decide⟩
  have hlen : (getSelectedCategories dom).length > 0 := List.length_pos.2 hcat
  simp only [applyFilters, facetFilter_category_only dom s.trainings hdur hprice hplace, hlen,
    if_true]
  exact List.filter_congr (fun t _ => by simp)

/-- Witness of `applyFilters_categories`: the seed collection with the
`creative` checkbox checked. -/
theorem applyFilters_categories_witness :
    (applyFilters creativeDom (loadTrainings constructed)).filteredTrainings =
      (loadTrainings constructed).trainings.filter
        (fun t => decide (t.category ∈ getSelectedCategories creativeDom)) :=
  (applyFilters_categories creativeDom (loadTrainings constructed) (by decide) (by decide)
    (by decide) (by decide)).1

/-- C6, the code at the failing input: with only the `1-3months` checkbox
checked, `getSelectedCategories` reports that value as a category, the
category step removes every seed record and the filtered list is empty, while
the duration bucket on its own keeps the records 2 and 6. -/
theorem applyFilters_duration_checkbox_seed :
    getSelectedCategories shortCourseDom = ["1-3months"] ∧
    getSelectedDurations shortCourseDom = ["1-3months"] ∧
    (applyFilters shortCourseDom (loadTrainings constructed)).filteredTrainings = [] ∧
    (filterByDuration seedTrainings ["1-3months"]).map (fun t => t.id) = [2, 6] := by
  decide

/-- C7: with empty criteria (no category, no duration bucket, the price option
absent or `all`, no state and no city) `applyFilters` sets the filtered list to
the full collection in its original order and the current page to 1. -/
theorem applyFilters_empty_criteria (dom : Dom) (s : State)
    (hcat : getSelectedCategories dom = []) (hdur : getSelectedDurations dom = [])
    (hprice : dom.priceChecked = none ∨ dom.priceChecked = some "all")
    (hplace : placeInactive dom = true) :
    (applyFilters dom s).filteredTrainings = s.trainings ∧
    (applyFilters dom s).currentPage = 1 := by
  have hp : priceInactive dom = true := by
    rcases hprice with h | h <;> simp [priceInactive, priceCases, h]
  refine ⟨?_, rfl⟩
  simp [applyFilters, facetFilter_category_only dom s.trainings hdur hp hplace, hcat]

/-- Witness of `applyFilters_empty_criteria`: the seed collection, nothing
checked and the price radio on `all`. -/
theorem applyFilters_empty_criteria_witness :
    (applyFilters { emptyDom with priceChecked := some "all" }
        (loadTrainings constructed)).filteredTrainings = seedTrainings ∧
    (applyFilters { emptyDom with priceChecked := some "all" }
        (loadTrainings constructed)).currentPage = 1 :=
  applyFilters_empty_criteria { emptyDom with priceChecked := some "all" }
    (loadTrainings constructed) (by decide) (by decide) (Or.inr rfl) (by decide)

/-! ## Type buttons -/

/-- C8, refuted as stated: on the seed collection with the `creative` category
checked, `Online Only` leaves the records 1, 2 and 4, none of which is in the
facet result 3, 5, 6; the records that satisfy the facets and are online are
none. -/
theorem filterByType_drops_facets :
    (applyFilters creativeDom (loadTrainings constructed)).filteredTrainings.map
      (fun t => t.id) = [3, 5, 6] ∧
    (filterByType "Online Only"
      (applyFilters creativeDom (loadTrainings constructed))).filteredTrainings.map
      (fun t => t.id) = [1, 2, 4] ∧
    ((facetFilter creativeDom seedTrainings).filter (fun t => t.type == "online")).map
      (fun t => t.id) = [] := by
  decide

/-- C8, amended: type narrowing replaces the facet filters.  After the facets
are applied and a type is chosen with `filterByType`, the filtered list is
exactly the records of the full collection that have that type (`online` for a
button text containing `Online Only`, `physical` for one containing
`Physical Only`), whatever the facet criteria, and the current page is 1. -/
theorem filterByType_replaces (dom : Dom) (s : State) (text : String) :
    (includes text "Online Only" = true →
      (filterByType text (applyFilters dom s)).filteredTrainings =
        s.trainings.filter (fun t => decide (t.type = "online"))) ∧
    (includes text "Online Only" = false → includes text "Physical Only" = true →
      (filterByType text (applyFilters dom s)).filteredTrainings =
        s.trainings.filter (fun t => decide (t.type = "physical"))) ∧
    (filterByType text (applyFilters dom s)).currentPage = 1 := by
  refine ⟨?_, ?_, rfl⟩
  · intro h
    simp only [filterByType, applyFilters, h, if_true]
    exact List.filter_congr (fun t _ => rfl)
  · intro h1 h2
    simp only [filterByType, applyFilters, h1, h2, if_true, Bool.false_eq_true, if_false]
    exact List.filter_congr (fun t _ => rfl)

/-- Witness of `filterByType_replaces`: the two buttons on the seed collection
with the `creative` category checked. -/
theorem filterByType_replaces_witness :
    (filterByType "Online Only"
        (applyFilters creativeDom (loadTrainings constructed))).filteredTrainings =
      (loadTrainings constructed).trainings.filter (fun t => decide (t.type = "online")) ∧
    (filterByType "Physical Only"
        (applyFilters creativeDom (loadTrainings constructed))).filteredTrainings =
      (loadTrainings constructed).trainings.filter (fun t => decide (t.type = "physical")) :=
  ⟨(filterByType_replaces creativeDom (loadTrainings constructed) "Online Only").1 (by decide),
   (filterByType_replaces creativeDom (loadTrainings constructed) "Physical Only").2.1
      (by decide) (by decide)⟩

/-! ## Search -/

theorem trimIsEmpty_of_hasVisibleChar {query : String} (hq : hasVisibleChar query) :
    query ≠ "" ∧ trimIsEmpty query = false := by
  obtain ⟨c, hc, hw⟩ := hq
  constructor
  · intro h
    rw [h] at hc
    simp at hc
  · rw [← Bool.not_eq_true]
    intro h
    simp only [trimIsEmpty, List.all_eq_true] at h
    rw [h c hc] at hw
    exact Bool.noConfusion hw

theorem toLowerCase_data_ne_nil {query : String} (hq : hasVisibleChar query) :
    (toLowerCase query).data ≠ [] := by
  obtain ⟨c, hc, _⟩ := hq
  intro h
  have : Char.toLower c ∈ (toLowerCase query).data := by
    simp only [toLowerCase]
    exact List.mem_map_of_mem _ hc
  rw [h] at this
  simp at this

/-- The callback of the search is the substring condition of the
specification, for a non-empty query and a lower-casing that leaves the empty
string empty. -/
theorem searchMatchesWith_iff (lower : String → String) (hnil : lower "" = "")
    (query : String) (t : Training) (hq : query.data ≠ []) :
    searchMatchesWith lower query t = true ↔ queryOccursWith lower query t := by
  have hloc : (match t.location with
      | some location => location != "" && includes (lower location) query
      | none => false) = true ↔
      ∃ location ∈ t.location, query.data <:+: (lower location).data := by
    cases t.location with
    | none => simp
    | some l =>
      simp only [Option.mem_def, Option.some.injEq, exists_eq_left', Bool.and_eq_true,
        bne_iff_ne, ne_eq, includes_iff]
      constructor
      · exact fun h => h.2
      · intro h
        refine ⟨?_, h⟩
        intro hl
        rw [hl, hnil] at h
        have : query.data = [] := by simpa using h
        exact hq this
  simp only [searchMatchesWith, queryOccursWith, Bool.or_eq_true, includes_iff, hloc, or_assoc]

theorem toLowerCase_empty : toLowerCase "" = "" := rfl

/-- The callback of the search is the substring condition of the
specification, for a non-empty query. -/
theorem searchMatches_iff (query : String) (t : Training) (hq : query.data ≠ []) :
    searchMatches query t = true ↔ queryOccurs query t :=
  searchMatchesWith_iff toLowerCase toLowerCase_empty query t hq

/-- A query with a visible character takes the search branch. -/
theorem searchTrainingsWith_of_hasVisibleChar (lower : String → String) (dom : Dom) (s : State)
    {query : String} (hq : hasVisibleChar query) :
    searchTrainingsWith lower dom query s =
      { s with filteredTrainings := s.trainings.filter (searchMatchesWith lower (lower query)),
               currentPage := 1 } := by
  obtain ⟨h1, h2⟩ := trimIsEmpty_of_hasVisibleChar hq
  simp [searchTrainingsWith, h1, h2]

/-- A query with a visible character takes the search branch. -/
theorem searchTrainings_of_hasVisibleChar (dom : Dom) (s : State) {query : String}
    (hq : hasVisibleChar query) :
    searchTrainings dom query s =
      { s with filteredTrainings := s.trainings.filter (searchMatches (toLowerCase query)),
               currentPage := 1 } :=
  searchTrainingsWith_of_hasVisibleChar toLowerCase dom s hq

theorem toLowerCase_eq_empty_iff (text : String) : toLowerCase text = "" ↔ text = "" := by
  constructor
  · intro h
    have hdata := congrArg String.data h
    simp only [toLowerCase, List.map_eq_nil_iff] at hdata
    exact String.ext hdata
  · intro h
    rw [h]
    rfl

theorem toLowerCaseLatin_eq_empty_iff (text : String) :
    toLowerCaseLatin text = "" ↔ text = "" := by
  constructor
  · intro h
    have hdata := congrArg String.data h
    simp only [toLowerCaseLatin, List.map_eq_nil_iff] at hdata
    exact String.ext hdata
  · intro h
    rw [h]
    rfl

set_option maxRecDepth 8000 in
/-- C9: for a query with at least one non-white-space character, the public
`searchTrainings` sets the filtered list to exactly the records for which the
lower-cased query is a substring of the lower-cased title, description or
category, or of the lower-cased location when there is one, in original order;
two such queries that differ only in letter case, that is, with the same
lower-casing, give the same list; a record that matches only through its
provider is not returned.

The lower-casing is `lower`, any function on strings that takes the empty
string, and only it, to the empty string, as `String.prototype.toLowerCase`
does: the statement holds whatever the case table is.  On the seed collection
the queries `FASHION`, `fAsHiOn` and `fashion` all return record 3, and
`academy`, which occurs in the provider of records 1 and 3 and in no searched
field, returns nothing. -/
theorem searchTrainings_exact (lower : String → String)
    (hlower : ∀ text : String, lower text = "" ↔ text = "")
    (dom : Dom) (s : State) (query : String) (hq : hasVisibleChar query) :
    (searchTrainingsWith lower dom query s).filteredTrainings =
      s.trainings.filter (fun t => decide (queryOccursWith lower (lower query) t)) ∧
    (∀ other : String, hasVisibleChar other → lower other = lower query →
      (searchTrainingsWith lower dom other s).filteredTrainings =
        (searchTrainingsWith lower dom query s).filteredTrainings) ∧
    (∀ t : Training, (lower query).data <:+: (lower t.provider).data →
      ¬ queryOccursWith lower (lower query) t →
      t ∉ (searchTrainingsWith lower dom query s).filteredTrainings) ∧
    ((searchTrainings emptyDom "FASHION" (loadTrainings constructed)).filteredTrainings.map
        (fun t => t.id) = [3] ∧
      (searchTrainings emptyDom "fAsHiOn" (loadTrainings constructed)).filteredTrainings.map
        (fun t => t.id) = [3] ∧
      (searchTrainings emptyDom "fashion" (loadTrainings constructed)).filteredTrainings.map
        (fun t => t.id) = [3] ∧
      (searchTrainings emptyDom "academy" (loadTrainings constructed)).filteredTrainings = [] ∧
      ((loadTrainings constructed).trainings.filter
        (fun t => decide ("academy".data <:+: (toLowerCase t.provider).data))).map
        (fun t => t.id) = [1, 3]) := by
  have hempty : lower "" = "" := (hlower "").2 rfl
  have hne : (lower query).data ≠ [] := by
    intro h
    have hquery : query = "" := (hlower query).1 (String.ext h)
    exact (trimIsEmpty_of_hasVisibleChar hq).1 hquery
  have hfilter : (searchTrainingsWith lower dom query s).filteredTrainings =
      s.trainings.filter (fun t => decide (queryOccursWith lower (lower query) t)) := by
    rw [searchTrainingsWith_of_hasVisibleChar lower dom s hq]
    refine List.filter_congr (fun t _ => ?_)
    rw [Bool.eq_iff_iff, searchMatchesWith_iff lower hempty _ t hne, decide_eq_true_eq]
  refine ⟨hfilter, ?_, ?_, by decide⟩
  · intro other hvisible hother
    rw [searchTrainingsWith_of_hasVisibleChar lower dom s hq,
      searchTrainingsWith_of_hasVisibleChar lower dom s hvisible, hother]
  · intro t _ hno hmem
    rw [hfilter, List.mem_filter, decide_eq_true_eq] at hmem
    exact hno hmem.2

set_option maxRecDepth 8000 in
/-- Witness of `searchTrainings_exact`, with a lower-casing that reaches beyond
ASCII: on the seed collection followed by a record with the title
`CAFÉ Skills`, the query `Café` returns that record, and so does `CAFÉ`, which
has the same lower-casing. -/
theorem searchTrainings_exact_witness :
    (searchTrainingsWith toLowerCaseLatin emptyDom "Café"
        { loadTrainings constructed with trainings := accentedTrainings }).filteredTrainings.map
      (fun t => t.id) = [7] ∧
    (searchTrainingsWith toLowerCaseLatin emptyDom "CAFÉ"
        { loadTrainings constructed with trainings := accentedTrainings }).filteredTrainings =
      (searchTrainingsWith toLowerCaseLatin emptyDom "Café"
        { loadTrainings constructed with trainings := accentedTrainings }).filteredTrainings :=
  ⟨(congrArg (List.map (fun t => t.id))
      (searchTrainings_exact toLowerCaseLatin toLowerCaseLatin_eq_empty_iff emptyDom
        { loadTrainings constructed with trainings := accentedTrainings } "Café"
        ⟨'C', by decide, by decide⟩).1).trans (by decide),
   (searchTrainings_exact toLowerCaseLatin toLowerCaseLatin_eq_empty_iff emptyDom
      { loadTrainings constructed with trainings := accentedTrainings } "Café"
      ⟨'C', by decide, by decide⟩).2.1 "CAFÉ" ⟨'C', by decide, by decide⟩ (by decide)⟩

/-- C10: an active search replaces the facet filters.  For a query with a
non-white-space character the filtered list after `searchTrainings` is computed
from the full collection and is the same whatever facet criteria are selected;
on the seed collection with the `tech` category checked, the query `fashion`
returns record 3, which the facets exclude. -/
theorem searchTrainings_replaces_facets (dom other : Dom) (s : State) (query : String)
    (hq : hasVisibleChar query) :
    (searchTrainings dom query (applyFilters dom s)).filteredTrainings =
      s.trainings.filter (searchMatches (toLowerCase query)) ∧
    (searchTrainings dom query (applyFilters dom s)).filteredTrainings =
      (searchTrainings other query (applyFilters other s)).filteredTrainings ∧
    ((applyFilters techDom (loadTrainings constructed)).filteredTrainings.map
        (fun t => t.id) = [1, 4] ∧
      (searchTrainings techDom "fashion"
        (applyFilters techDom (loadTrainings constructed))).filteredTrainings.map
        (fun t => t.id) = [3]) := by
  refine ⟨?_, ?_, by decide⟩
  · rw [searchTrainings_of_hasVisibleChar _ _ hq]
    rfl
  · rw [searchTrainings_of_hasVisibleChar _ _ hq, searchTrainings_of_hasVisibleChar _ _ hq]
    rfl

/-- Witness of `searchTrainings_replaces_facets`: the query `fashion` under the
`tech` and the `creative` selection. -/
theorem searchTrainings_replaces_facets_witness :
    (searchTrainings techDom "fashion"
        (applyFilters techDom (loadTrainings constructed))).filteredTrainings =
      (searchTrainings creativeDom "fashion"
        (applyFilters creativeDom (loadTrainings constructed))).filteredTrainings :=
  (searchTrainings_replaces_facets techDom creativeDom (loadTrainings constructed) "fashion"
    ⟨'f', by decide, by decide⟩).2.1

/-! ## Search with a blank or unmatched query -/

theorem slice_nil {α : Type} (start stop : Int) : slice ([] : List α) start stop = [] := by
  simp [slice]

/-- C11: in the public view `searchTrainings` with an empty or
white-space-only query is `applyFilters` alone (same filtered list, same
current page); a query that matches no record leaves an empty filtered list,
hence an empty page and a result count of 0. -/
theorem searchTrainings_blank_or_unmatched (dom : Dom) (s : State) (query : String) :
    (query = "" ∨ (∀ c ∈ query.data, isWhiteSpace c = true) →
      searchTrainings dom query s = applyFilters dom s) ∧
    (hasVisibleChar query → (∀ t ∈ s.trainings, ¬ queryOccurs (toLowerCase query) t) →
      (searchTrainings dom query s).filteredTrainings = [] ∧
      pageTrainings (searchTrainings dom query s) = [] ∧
      resultsCount (searchTrainings dom query s) = 0) := by
  constructor
  · intro h
    have hblank : query = "" ∨ trimIsEmpty query = true := by
      rcases h with h | h
      · exact Or.inl h
      · exact Or.inr (by simpa [trimIsEmpty] using h)
    simp only [searchTrainings, searchTrainingsWith, hblank, if_true]
  · intro hq hnone
    have hne := toLowerCase_data_ne_nil hq
    have hempty : (searchTrainings dom query s).filteredTrainings = [] := by
      rw [searchTrainings_of_hasVisibleChar dom s hq]
      simp only [List.filter_eq_nil_iff]
      intro t ht hmatch
      exact hnone t ht ((searchMatches_iff _ t hne).1 hmatch)
    refine ⟨hempty, ?_, ?_⟩
    · simp only [pageTrainings, hempty, slice_nil]
    · simp only [resultsCount, hempty, List.length_nil]

set_option maxRecDepth 8000 in
/-- Witness of `searchTrainings_blank_or_unmatched`: three spaces, and the
query `zumba`, on the seed collection with the `creative` category checked. -/
theorem searchTrainings_blank_or_unmatched_witness :
    searchTrainings creativeDom "   " (loadTrainings constructed) =
      applyFilters creativeDom (loadTrainings constructed) ∧
    ((searchTrainings creativeDom "zumba" (loadTrainings constructed)).filteredTrainings = [] ∧
      pageTrainings (searchTrainings creativeDom "zumba" (loadTrainings constructed)) = [] ∧
      resultsCount (searchTrainings creativeDom "zumba" (loadTrainings constructed)) = 0) :=
  ⟨(searchTrainings_blank_or_unmatched creativeDom (loadTrainings constructed) "   ").1
      (Or.inr (by decide)),
   (searchTrainings_blank_or_unmatched creativeDom (loadTrainings constructed) "zumba").2
      ⟨'z', by decide, by decide⟩ (by decide)⟩

/-! ## Sorting -/

/-- Sorting by a comparator that, on the records of the list, orders by an
integer key: the result is a permutation, is ordered by the key, and keeps the
records of each key in their original order. -/
theorem sort_by_key (key : Training → Int) (compareFn : Training → Training → Int)
    (l : List Training) (h : ∀ a ∈ l, ∀ b ∈ l, compareFn a b ≤ 0 ↔ key a ≤ key b) :
    (sort compareFn l).Perm l ∧
    (sort compareFn l).Pairwise (fun a b => key a ≤ key b) ∧
    ∀ k : Int, (sort compareFn l).filter (fun t => key t == k) =
      l.filter (fun t => key t == k) := by
  have e : sort compareFn l = l.insertionSort (fun a b => key a ≤ key b) := by
    have := List.map_insertionSort (fun a b => compareFn a b ≤ 0) (fun a b => key a ≤ key b)
      id l (by simpa using h)
    simpa [sort] using this
  rw [e]
  have htotal : IsTotal Training (fun a b => key a ≤ key b) :=
    ⟨fun a b => le_total (key a) (key b)⟩
  have htrans : IsTrans Training (fun a b => key a ≤ key b) :=
    ⟨fun a b c hab hbc => le_trans hab hbc⟩
  have hperm : (l.insertionSort (fun a b => key a ≤ key b)).Perm l := List.perm_insertionSort _ l
  refine ⟨hperm, List.sorted_insertionSort (fun a b => key a ≤ key b) l, ?_⟩
  intro k
  have hsub : List.Sublist (l.filter (fun t => key t == k)) l := List.filter_sublist l
  have hpair : (l.filter (fun t => key t == k)).Pairwise (fun a b => key a ≤ key b) := by
    rw [List.pairwise_iff_forall_sublist]
    intro a b hab
    have ha : a ∈ l.filter (fun t => key t == k) := hab.subset (by simp)
    have hb : b ∈ l.filter (fun t => key t == k) := hab.subset (by simp)
    simp only [List.mem_filter, beq_iff_eq] at ha hb
    rw [ha.2, hb.2]
  have hin : List.Sublist (l.filter (fun t => key t == k))
      (l.insertionSort (fun a b => key a ≤ key b)) :=
    List.sublist_insertionSort hpair hsub
  have hin2 := hin.filter (fun t => key t == k)
  simp only [List.filter_filter, Bool.and_self] at hin2
  have hlen : ((l.insertionSort (fun a b => key a ≤ key b)).filter (fun t => key t == k)).length =
      (l.filter (fun t => key t == k)).length := (hperm.filter _).length_eq
  exact (hin2.eq_of_length hlen.symm).symm

theorem compareDuration_le (l : List Training) (hparse : ∀ t ∈ l, parseInt t.duration ≠ none)
    (a : Training) (ha : a ∈ l) (b : Training) (hb : b ∈ l) :
    compareDuration a b ≤ 0 ↔ months a ≤ months b := by
  obtain ⟨x, hx⟩ := Option.ne_none_iff_exists'.1 (hparse a ha)
  obtain ⟨y, hy⟩ := Option.ne_none_iff_exists'.1 (hparse b hb)
  simp only [compareDuration, months, hx, hy, Option.getD_some]
  omega

/-- C13: `sortTrainings` leaves a permutation of the filtered list, whatever
the sort option; the list is ordered by id descending for `Latest`, by price
ascending for `Price: Low to High`, by price descending for
`Price: High to Low`, and by the parsed leading integer of the duration
ascending for `Duration` when every duration has one; in each case the records
of equal key keep their relative order. -/
theorem sortTrainings_ordered (s : State) (sortBy : String) :
    (sortTrainings sortBy s).filteredTrainings.Perm s.filteredTrainings ∧
    ((sortTrainings "Latest" s).filteredTrainings.Pairwise (fun a b => a.id ≥ b.id) ∧
      ∀ k : Int, (sortTrainings "Latest" s).filteredTrainings.filter (fun t => t.id == k) =
        s.filteredTrainings.filter (fun t => t.id == k)) ∧
    ((sortTrainings "Price: Low to High" s).filteredTrainings.Pairwise
        (fun a b => a.price ≤ b.price) ∧
      ∀ k : Int,
        (sortTrainings "Price: Low to High" s).filteredTrainings.filter (fun t => t.price == k) =
          s.filteredTrainings.filter (fun t => t.price == k)) ∧
    ((sortTrainings "Price: High to Low" s).filteredTrainings.Pairwise
        (fun a b => a.price ≥ b.price) ∧
      ∀ k : Int,
        (sortTrainings "Price: High to Low" s).filteredTrainings.filter (fun t => t.price == k) =
          s.filteredTrainings.filter (fun t => t.price == k)) ∧
    ((∀ t ∈ s.filteredTrainings, parseInt t.duration ≠ none) →
      (sortTrainings "Duration" s).filteredTrainings.Pairwise
        (fun a b => months a ≤ months b) ∧
      ∀ k : Int,
        (sortTrainings "Duration" s).filteredTrainings.filter (fun t => months t == k) =
          s.filteredTrainings.filter (fun t => months t == k)) := by
  have hdesc : ∀ (key : Training → Int),
      (sort (fun a b => key b - key a) s.filteredTrainings).Perm s.filteredTrainings ∧
      (sort (fun a b => key b - key a) s.filteredTrainings).Pairwise
        (fun a b => key a ≥ key b) ∧
      ∀ k : Int, (sort (fun a b => key b - key a) s.filteredTrainings).filter
          (fun t => key t == k) = s.filteredTrainings.filter (fun t => key t == k) := by
    intro key
    obtain ⟨h1, h2, h3⟩ := sort_by_key (fun t => -key t) (fun a b => key b - key a)
      s.filteredTrainings (fun a _ b _ => by
        show key b - key a ≤ 0 ↔ -key a ≤ -key b
        omega)
    refine ⟨h1, h2.imp (fun {a b} h => by
      have h' : -key a ≤ -key b := h
      omega), fun k => ?_⟩
    have hk := h3 (-k)
    have hcongr : ∀ l : List Training,
        l.filter (fun t => -key t == -k) = l.filter (fun t => key t == k) :=
      fun l => List.filter_congr (fun t _ => by simp)
    rw [hcongr, hcongr] at hk
    exact hk
  have hasc : ∀ (key : Training → Int),
      (sort (fun a b => key a - key b) s.filteredTrainings).Perm s.filteredTrainings ∧
      (sort (fun a b => key a - key b) s.filteredTrainings).Pairwise
        (fun a b => key a ≤ key b) ∧
      ∀ k : Int, (sort (fun a b => key a - key b) s.filteredTrainings).filter
          (fun t => key t == k) = s.filteredTrainings.filter (fun t => key t == k) := by
    intro key
    exact sort_by_key key (fun a b => key a - key b) s.filteredTrainings
      (fun a _ b _ => by
        show key a - key b ≤ 0 ↔ key a ≤ key b
        omega)
  refine ⟨?_, ?_, ?_, ?_, ?_⟩
  · unfold sortTrainings
    split_ifs
    · exact (hdesc (fun t => t.id)).1
    · exact (hasc (fun t => t.price)).1
    · exact (hdesc (fun t => t.price)).1
    · exact List.perm_insertionSort _ _
    · exact List.Perm.refl _
  · simpa [sortTrainings] using (hdesc (fun t => t.id)).2
  · simpa [sortTrainings] using (hasc (fun t => t.price)).2
  · simpa [sortTrainings] using (hdesc (fun t => t.price)).2
  · intro hparse
    simpa [sortTrainings] using
      (sort_by_key months compareDuration s.filteredTrainings
        (compareDuration_le s.filteredTrainings hparse)).2

/-- Witness of `sortTrainings_ordered`: every seed duration has a leading
integer, and sorting the seed by duration orders it by month count. -/
theorem sortTrainings_ordered_witness :
    (sortTrainings "Duration" (loadTrainings constructed)).filteredTrainings.Pairwise
        (fun a b => months a ≤ months b) ∧
      ∀ k : Int,
        (sortTrainings "Duration" (loadTrainings constructed)).filteredTrainings.filter
            (fun t => months t == k) =
          (loadTrainings constructed).filteredTrainings.filter (fun t => months t == k) :=
  (sortTrainings_ordered (loadTrainings constructed) "Duration").2.2.2.2 (by decide)

end TrainingFilters

namespace Pagination

open TrainingFilters (slice ceilPages pageRejected)

/-! ## Pages -/

/-- The integer formula of `ceilPages` is the ceiling of the quotient. -/
theorem ceilPages_eq (n d : Nat) (hd : 0 < d) : ceilPages n d = some ⌈(n : ℚ) / d⌉₊ := by
  have hd0 : d ≠ 0 := Nat.pos_iff_ne_zero.1 hd
  simp only [ceilPages, hd0, if_false, Option.some.injEq]
  have hdq : (0 : ℚ) < d := by exact_mod_cast hd
  have h1 := Nat.div_add_mod (n + d - 1) d
  have h2 := Nat.mod_lt (n + d - 1) hd
  generalize hk : (n + d - 1) / d = k at h1
  generalize (n + d - 1) % d = m at h1 h2
  symm
  rcases Nat.eq_zero_or_pos n with hn | hn
  · subst hn
    have hk0 : k = 0 := by
      rcases Nat.eq_zero_or_pos k with h | h
      · exact h
      · have : d ≤ d * k := Nat.le_mul_of_pos_right d h
        omega
    simp [hk0]
  · have hkpos : k ≠ 0 := by
      intro h
      subst h
      simp at h1
      omega
    rw [Nat.ceil_eq_iff hkpos]
    constructor
    · rw [lt_div_iff₀ hdq]
      have : (k - 1) * d < n := by
        have e : (k - 1) * d = d * k - d := by
          rw [Nat.sub_mul, Nat.one_mul, Nat.mul_comm]
        omega
      exact_mod_cast this
    · rw [div_le_iff₀ hdq]
      have : n ≤ k * d := by
        rw [Nat.mul_comm]
        omega
      exact_mod_cast this

theorem slice_page {α : Type} (l : List α) (size p : Nat) (hp : 1 ≤ p) :
    slice l (((p : Int) - 1) * size) (((p : Int) - 1) * size + size) =
      (l.drop ((p - 1) * size)).take size := by
  have hstart : ((p : Int) - 1) * size = (((p - 1) * size : Nat) : Int) := by
    push_cast [Nat.cast_sub hp]
    ring
  rw [hstart]
  generalize (p - 1) * size = start
  have h0 : ¬ ((start : Int) < 0) := by omega
  have h1 : ¬ ((start : Int) + size < 0) := by omega
  simp only [TrainingFilters.slice, h0, h1, if_false]
  rcases Nat.le_total start l.length with hle | hle
  · have e1 : (min (start : Int) (l.length : Int)).toNat = start := by omega
    have e2 : (min ((start : Int) + size) (l.length : Int) - min (start : Int) (l.length : Int)).toNat
        = min size (l.length - start) := by omega
    rw [e1, e2, List.take_eq_take]
    simp
  · have e1 : (min (start : Int) (l.length : Int)).toNat = l.length := by omega
    rw [e1, List.drop_length, List.drop_eq_nil_of_le hle]
    simp

theorem ceil_six (n : Nat) : ⌈(n : ℚ) / 6⌉₊ = (n + 5) / 6 := by
  have h := ceilPages_eq n 6 (by decide)
  simp only [ceilPages, OfNat.ofNat_ne_zero, if_false, Option.some.injEq, Nat.cast_ofNat] at h
  exact h.symm

theorem ceil_ten (n : Nat) : ⌈(n : ℚ) / 10⌉₊ = (n + 9) / 10 := by
  have h := ceilPages_eq n 10 (by decide)
  simp only [ceilPages, OfNat.ofNat_ne_zero, if_false, Option.some.injEq, Nat.cast_ofNat] at h
  exact h.symm

/-- C14: out-of-range page requests are rejected with no state change, in the
public controller (page size 6) and in the admin controller (page size 10): for
a page number below 1 or above the ceiling of length / page size `goToPage`
returns the state as it is, and for a page number from 1 to that ceiling it
sets the current page to it and changes nothing else. -/
theorem goToPage_range (s : TrainingFilters.State) (a : AdminTrainings.State) (p : Int)
    (hs : s.itemsPerPage = 6) (ha : a.itemsPerPage = 10) :
    ((p < 1 ∨ p > (⌈(s.filteredTrainings.length : ℚ) / 6⌉₊ : Int)) →
      TrainingFilters.goToPage p s = s) ∧
    ((1 ≤ p ∧ p ≤ (⌈(s.filteredTrainings.length : ℚ) / 6⌉₊ : Int)) →
      TrainingFilters.goToPage p s = { s with currentPage := p }) ∧
    ((p < 1 ∨ p > (⌈((AdminTrainings.filteredTrainings a).length : ℚ) / 10⌉₊ : Int)) →
      AdminTrainings.goToPage p a = a) ∧
    ((1 ≤ p ∧ p ≤ (⌈((AdminTrainings.filteredTrainings a).length : ℚ) / 10⌉₊ : Int)) →
      AdminTrainings.goToPage p a = { a with currentPage := p }) := by
  have hts : TrainingFilters.totalPages s =
      some ⌈(s.filteredTrainings.length : ℚ) / 6⌉₊ := by
    rw [TrainingFilters.totalPages, hs, ceilPages_eq _ 6 (by decide)]
    simp
  have hta : AdminTrainings.totalPages a =
      some ⌈((AdminTrainings.filteredTrainings a).length : ℚ) / 10⌉₊ := by
    rw [AdminTrainings.totalPages, ha, ceilPages_eq _ 10 (by decide)]
    simp
  refine ⟨?_, ?_, ?_, ?_⟩
  · intro h
    have hrej : pageRejected p (TrainingFilters.totalPages s) = true := by
      simpa [pageRejected, hts] using h
    simp [TrainingFilters.goToPage, hrej]
  · intro h
    have hrej : pageRejected p (TrainingFilters.totalPages s) = false := by
      simp only [pageRejected, hts, Bool.or_eq_false_iff, decide_eq_false_iff_not]
      omega
    simp [TrainingFilters.goToPage, hrej]
  · intro h
    have hrej : pageRejected p (AdminTrainings.totalPages a) = true := by
      simpa [pageRejected, hta] using h
    simp [AdminTrainings.goToPage, hrej]
  · intro h
    have hrej : pageRejected p (AdminTrainings.totalPages a) = false := by
      simp only [pageRejected, hta, Bool.or_eq_false_iff, decide_eq_false_iff_not]
      omega
    simp [AdminTrainings.goToPage, hrej]

/-- Witness of `goToPage_range`: on the public seed state (one page) page 2 is
rejected, and on the admin seed state (one page) page 0 is rejected. -/
theorem goToPage_range_witness :
    TrainingFilters.goToPage 2 (TrainingFilters.afterApplyFilters TrainingFilters.emptyDom) =
      TrainingFilters.afterApplyFilters TrainingFilters.emptyDom ∧
    TrainingFilters.goToPage 1 (TrainingFilters.afterApplyFilters TrainingFilters.emptyDom) =
      { TrainingFilters.afterApplyFilters TrainingFilters.emptyDom with currentPage := 1 } ∧
    AdminTrainings.goToPage 0 (AdminTrainings.init none "2026-11-05T09:00:00.000Z") =
      AdminTrainings.init none "2026-11-05T09:00:00.000Z" ∧
    AdminTrainings.goToPage 1 (AdminTrainings.init none "2026-11-05T09:00:00.000Z") =
      { AdminTrainings.init none "2026-11-05T09:00:00.000Z" with currentPage := 1 } :=
  ⟨(goToPage_range (TrainingFilters.afterApplyFilters TrainingFilters.emptyDom)
      (AdminTrainings.init none "2026-11-05T09:00:00.000Z") 2 rfl rfl).1
      (Or.inr (by rw [ceil_six]; decide)),
   (goToPage_range (TrainingFilters.afterApplyFilters TrainingFilters.emptyDom)
      (AdminTrainings.init none "2026-11-05T09:00:00.000Z") 1 rfl rfl).2.1
      ⟨by decide, by rw [ceil_six]; decide⟩,
   (goToPage_range (TrainingFilters.afterApplyFilters TrainingFilters.emptyDom)
      (AdminTrainings.init none "2026-11-05T09:00:00.000Z") 0 rfl rfl).2.2.1
      (Or.inl (by decide)),
   (goToPage_range (TrainingFilters.afterApplyFilters TrainingFilters.emptyDom)
      (AdminTrainings.init none "2026-11-05T09:00:00.000Z") 1 rfl rfl).2.2.2
      ⟨by decide, by rw [ceil_ten]; decide⟩⟩

/-- C15: for a valid page `p` (from 1 to the ceiling of n / size) the page
rendered is the slice from `(p - 1) * size` to `p * size` of the filtered
list; it holds exactly `size` records when `p` is below the page count and
between 1 and `size` records when `p` is the last page, for the public size 6
and the admin size 10; on the six seed records with size 6, page 1 holds all
six and the page count is 1. -/
theorem page_contents (s : TrainingFilters.State) (a : AdminTrainings.State) (p : Nat)
    (hs : s.itemsPerPage = 6) (ha : a.itemsPerPage = 10) (hp : 1 ≤ p) :
    (s.currentPage = (p : Int) → p ≤ ⌈(s.filteredTrainings.length : ℚ) / 6⌉₊ →
      TrainingFilters.pageTrainings s = (s.filteredTrainings.drop ((p - 1) * 6)).take 6 ∧
      (p < ⌈(s.filteredTrainings.length : ℚ) / 6⌉₊ →
        (TrainingFilters.pageTrainings s).length = 6) ∧
      (p = ⌈(s.filteredTrainings.length : ℚ) / 6⌉₊ →
        1 ≤ (TrainingFilters.pageTrainings s).length ∧
        (TrainingFilters.pageTrainings s).length ≤ 6)) ∧
    (a.currentPage = (p : Int) →
      p ≤ ⌈((AdminTrainings.filteredTrainings a).length : ℚ) / 10⌉₊ →
      AdminTrainings.pageTrainings a =
        ((AdminTrainings.filteredTrainings a).drop ((p - 1) * 10)).take 10 ∧
      (p < ⌈((AdminTrainings.filteredTrainings a).length : ℚ) / 10⌉₊ →
        (AdminTrainings.pageTrainings a).length = 10) ∧
      (p = ⌈((AdminTrainings.filteredTrainings a).length : ℚ) / 10⌉₊ →
        1 ≤ (AdminTrainings.pageTrainings a).length ∧
        (AdminTrainings.pageTrainings a).length ≤ 10)) ∧
    (TrainingFilters.pageTrainings (TrainingFilters.afterApplyFilters TrainingFilters.emptyDom) =
        TrainingFilters.seedTrainings ∧
      TrainingFilters.totalPages (TrainingFilters.afterApplyFilters TrainingFilters.emptyDom) =
        some 1) := by
  refine ⟨?_, ?_, by decide⟩
  · intro hcur hle
    have hpage : TrainingFilters.pageTrainings s =
        (s.filteredTrainings.drop ((p - 1) * 6)).take 6 := by
      simp only [TrainingFilters.pageTrainings, hcur, hs]
      exact slice_page s.filteredTrainings 6 p hp
    rw [ceil_six] at hle ⊢
    rw [hpage, List.length_take, List.length_drop]
    refine ⟨rfl, ?_, ?_⟩
    · intro h; omega
    · intro h; omega
  · intro hcur hle
    have hpage : AdminTrainings.pageTrainings a =
        ((AdminTrainings.filteredTrainings a).drop ((p - 1) * 10)).take 10 := by
      simp only [AdminTrainings.pageTrainings, hcur, ha]
      exact slice_page (AdminTrainings.filteredTrainings a) 10 p hp
    rw [ceil_ten] at hle ⊢
    rw [hpage, List.length_take, List.length_drop]
    refine ⟨rfl, ?_, ?_⟩
    · intro h; omega
    · intro h; omega

/-- Witness of `page_contents`: page 1 of the public and of the admin seed
state. -/
theorem page_contents_witness :
    TrainingFilters.pageTrainings (TrainingFilters.afterApplyFilters TrainingFilters.emptyDom) =
      ((TrainingFilters.afterApplyFilters TrainingFilters.emptyDom).filteredTrainings.drop ((1 - 1) * 6)).take
        6 ∧
    AdminTrainings.pageTrainings (AdminTrainings.init none "2026-11-05T09:00:00.000Z") =
      ((AdminTrainings.filteredTrainings
        (AdminTrainings.init none "2026-11-05T09:00:00.000Z")).drop ((1 - 1) * 10)).take 10 :=
  ⟨((page_contents (TrainingFilters.afterApplyFilters TrainingFilters.emptyDom)
      (AdminTrainings.init none "2026-11-05T09:00:00.000Z") 1 rfl rfl (by decide)).1 rfl
      (by rw [ceil_six]; decide)).1,
   ((page_contents (TrainingFilters.afterApplyFilters TrainingFilters.emptyDom)
      (AdminTrainings.init none "2026-11-05T09:00:00.000Z") 1 rfl rfl (by decide)).2.1 rfl
      (by rw [ceil_ten]; decide)).1⟩

end Pagination

namespace AdminTrainings

open TrainingFilters (toLowerCase includes)

/-! ## The filtered array as positions -/

theorem positionsWhere_cons (callback : Training → Bool) (a : Training) (l : List Training) :
    positionsWhere callback (a :: l) =
      (if callback a then [0] else []) ++ (positionsWhere callback l).map (fun i => i + 1) := by
  simp only [positionsWhere, List.length_cons, List.range_succ_eq_map, List.filter_cons,
    List.getElem?_cons_zero, List.filter_map]
  have hcomp : ((fun i => match (a :: l)[i]? with
      | some training => callback training
      | none => false) ∘ Nat.succ) = (fun i => match l[i]? with
      | some training => callback training
      | none => false) := by
    funext i
    simp
  rw [hcomp]
  split_ifs <;> rfl

theorem filterMap_getElem_succ (a : Training) (l : List Training) (positions : List Nat) :
    (positions.map (fun i => i + 1)).filterMap (fun i => (a :: l)[i]?) =
      positions.filterMap (fun i => l[i]?) := by
  rw [List.filterMap_map]
  have hcomp : ((fun i => (a :: l)[i]?) ∘ fun i => i + 1) = (fun i => l[i]?) := by
    funext i
    simp
  rw [hcomp]

/-- The records at the positions of `trainings.filter(callback)` are the
filtered records, in order. -/
theorem filterMap_positionsWhere (callback : Training → Bool) (l : List Training) :
    (positionsWhere callback l).filterMap (fun i => l[i]?) = l.filter callback := by
  induction l with
  | nil => rfl
  | cons a l ih =>
    rw [positionsWhere_cons, List.filterMap_append, filterMap_getElem_succ, ih]
    cases h : callback a <;> simp [h]

/-- The records at the positions of a copy are the collection. -/
theorem filterMap_allPositions (l : List Training) :
    (allPositions l).filterMap (fun i => l[i]?) = l := by
  have h := filterMap_positionsWhere (fun _ => true) l
  have hpos : positionsWhere (fun _ => true) l = allPositions l := by
    simp only [positionsWhere, allPositions]
    rw [List.filter_eq_self]
    intro i hi
    have hlt : i < l.length := List.mem_range.1 hi
    simp [List.getElem?_eq_getElem hlt]
  rw [hpos] at h
  simpa using h

/-! ## Search -/

/-- The admin search keeps exactly the records its callback accepts. -/
theorem admin_search_filtered (query : String) (s : State) :
    filteredTrainings (searchTrainings query s) =
      s.trainings.filter (searchMatches (toLowerCase query)) := by
  simp only [filteredTrainings, searchTrainings, filterMap_positionsWhere]

/-- The empty query keeps the whole collection. -/
theorem admin_search_empty_query (s : State) :
    filteredTrainings (searchTrainings "" s) = s.trainings := by
  rw [admin_search_filtered, List.filter_eq_self]
  intro t _
  have h : includes (toLowerCase t.title) (toLowerCase "") = true := by
    rw [TrainingFilters.includes_iff]
    exact List.nil_infix
  simp [searchMatches, h]

/-- C12, the code at the failing input: on the three seed records the query of
three spaces, which is white space only, keeps no record (no title,
description or provider contains three spaces in a row), while the empty query
keeps all three. -/
theorem admin_search_spaces_seed :
    TrainingFilters.trimIsEmpty "   " = true ∧
    ids (init none "2026-11-05T09:00:00.000Z") = [1, 2, 3] ∧
    filteredTrainings (searchTrainings "   " (init none "2026-11-05T09:00:00.000Z")) = [] ∧
    filteredTrainings (searchTrainings "" (init none "2026-11-05T09:00:00.000Z")) =
      (init none "2026-11-05T09:00:00.000Z").trainings := by
  decide

/-! ## Create, update, delete, approve -/

theorem findIndex_eq_none {callback : Training → Bool} {l : List Training}
    (h : ∀ t ∈ l, callback t = false) : findIndex callback l = none := by
  induction l with
  | nil => rfl
  | cons a l ih =>
    have ha : callback a = false := h a (List.mem_cons_self a l)
    have hl : ∀ t ∈ l, callback t = false := fun t ht => h t (List.mem_cons_of_mem a ht)
    simp [findIndex, ha, ih hl]

theorem findIndex_absent {id : Int} {l : List Training}
    (h : id ∉ l.map (fun t => t.id)) : findIndex (fun t => t.id == id) l = none := by
  apply findIndex_eq_none
  intro t ht
  simp only [beq_eq_false_iff_ne, ne_eq]
  intro hid
  exact h (List.mem_map.2 ⟨t, ht, hid⟩)

theorem assignAt_cons_succ (a : Training) (l : List Training) (index : Option Nat)
    (update : Training → Training) :
    assignAt (a :: l) (index.map (fun i => i + 1)) update = a :: assignAt l index update := by
  cases index with
  | none => rfl
  | some i =>
    simp only [assignAt, Option.map_some', List.getElem?_cons_succ]
    cases l[i]? <;> simp

/-- For an id that occurs, `findIndex` gives the position of its first
record. -/
theorem findIndex_of_mem {id : Int} {l : List Training} (h : id ∈ l.map (fun t => t.id)) :
    ∃ (index : Nat) (old : Training),
      findIndex (fun t => t.id == id) l = some index ∧ l[index]? = some old ∧ old.id = id ∧
      ∀ (j : Nat) (t : Training), j < index → l[j]? = some t → t.id ≠ id := by
  induction l with
  | nil => simp at h
  | cons a l ih =>
    by_cases ha : a.id = id
    · refine ⟨0, a, by simp [findIndex, ha], by simp, ha, ?_⟩
      intro j t hj
      omega
    · have hmem : id ∈ l.map (fun t => t.id) := by
        simp only [List.map_cons, List.mem_cons] at h
        rcases h with h | h
        · exact absurd h.symm ha
        · exact h
      obtain ⟨index, old, h1, h2, h3, h4⟩ := ih hmem
      refine ⟨index + 1, old, by simp [findIndex, ha, h1], by simpa using h2, h3, ?_⟩
      intro j t hj hjt
      cases j with
      | zero =>
        simp only [List.getElem?_cons_zero, Option.some.injEq] at hjt
        rw [← hjt]
        exact ha
      | succ j =>
        simp only [List.getElem?_cons_succ] at hjt
        exact h4 j t (by omega) hjt

/-- With pairwise distinct ids, writing through the index found for an id
changes exactly the record with that id. -/
theorem assignAt_findIndex_of_nodup (id : Int) (update : Training → Training)
    (l : List Training) (hnodup : (l.map (fun t => t.id)).Nodup) :
    assignAt l (findIndex (fun t => t.id == id) l) update =
      l.map (fun r => if r.id = id then update r else r) := by
  induction l with
  | nil => rfl
  | cons a l ih =>
    simp only [List.map_cons, List.nodup_cons] at hnodup
    by_cases ha : a.id = id
    · have hrest : l.map (fun r => if r.id = id then update r else r) = l := by
        conv_rhs => rw [← List.map_id l]
        apply List.map_congr_left
        intro r hr
        have : r.id ≠ id := by
          intro h
          exact hnodup.1 (List.mem_map.2 ⟨r, hr, by rw [h, ha]⟩)
        simp [this]
      simp [findIndex, assignAt, ha, hrest]
    · have hne : (a.id == id) = false := by simpa using ha
      simp only [findIndex, hne, Bool.false_eq_true, if_false, assignAt_cons_succ, ih hnodup.2,
        List.map_cons, ha]

theorem editing_eq_none {s : State} (h : s.editingId = none ∨ s.editingId = some 0) :
    editing s = none := by
  rcases h with h | h <;> simp [editing, h]

theorem editing_eq_some {s : State} {id : Int} (h : s.editingId = some id) (h0 : id ≠ 0) :
    editing s = some id := by
  simp [editing, h, h0]

/-- In add mode `saveTraining` puts the new record, with id `now`, in front of
the collection. -/
theorem saveTraining_add (form : Form) (now : Int) (iso : String) (s : State)
    (hadd : s.editingId = none ∨ s.editingId = some 0) :
    (saveTraining form now iso s).trainings =
      newTraining now (readForm form) iso :: s.trainings := by
  simp [saveTraining, editing_eq_none hadd, saveTrainings]

/-- C16, refuted as stated: two submissions in the same millisecond.  After one
add at time 1762333200000 the ids are pairwise distinct; a second add at the
same time value assigns an id that is already present, and the ids are no
longer distinct. -/
theorem saveTraining_same_millisecond :
    (ids (saveTraining sampleForm 1762333200000 stamp (init none stamp))).Nodup ∧
    (1762333200000 : Int) ∈ ids (saveTraining sampleForm 1762333200000 stamp (init none stamp)) ∧
    ids (saveTraining sampleForm 1762333200000 stamp
      (saveTraining sampleForm 1762333200000 stamp (init none stamp))) =
      [1762333200000, 1762333200000, 1, 2, 3] ∧
    ¬ (ids (saveTraining sampleForm 1762333200000 stamp
      (saveTraining sampleForm 1762333200000 stamp (init none stamp)))).Nodup := by
  decide

/-- C16, amended: for every collection whose ids are pairwise distinct and
every current time value that is not already the id of a record, `saveTraining`
in add mode gives the new record the id `now`, which is not present in the
collection, and the ids of the resulting collection are again pairwise
distinct. -/
theorem saveTraining_add_unique (form : Form) (now : Int) (iso : String) (s : State)
    (hadd : s.editingId = none ∨ s.editingId = some 0) (hnodup : (ids s).Nodup)
    (hnew : now ∉ ids s) :
    ids (saveTraining form now iso s) = now :: ids s ∧
    (ids (saveTraining form now iso s)).Nodup := by
  have h : ids (saveTraining form now iso s) = now :: ids s := by
    simp [ids, saveTraining_add form now iso s hadd, newTraining]
  exact ⟨h, by rw [h]; exact List.nodup_cons.2 ⟨hnew, hnodup⟩⟩

/-- Witness of `saveTraining_add_unique`: an add on the seed collection. -/
theorem saveTraining_add_unique_witness :
    ids (saveTraining sampleForm 1762333200000 stamp (init none stamp)) =
      1762333200000 :: ids (init none stamp) ∧
    (ids (saveTraining sampleForm 1762333200000 stamp (init none stamp))).Nodup :=
  saveTraining_add_unique sampleForm 1762333200000 stamp (init none stamp) (Or.inl rfl)
    (by decide) (by decide)

/-- C17: add followed by delete is a round trip.  When `saveTraining` in add
mode has put in front a new record whose id `now` was not present before, a
confirmed `deleteTraining(now)` leaves a collection with no record of that id,
one record shorter than after the add, and equal to the collection before the
add. -/
theorem add_then_delete (form : Form) (now : Int) (iso : String) (s : State)
    (hadd : s.editingId = none ∨ s.editingId = some 0) (hnew : now ∉ ids s) :
    (saveTraining form now iso s).trainings =
      newTraining now (readForm form) iso :: s.trainings ∧
    (∀ t ∈ (deleteTraining true now (saveTraining form now iso s)).trainings, t.id ≠ now) ∧
    (deleteTraining true now (saveTraining form now iso s)).trainings.length + 1 =
      (saveTraining form now iso s).trainings.length ∧
    (deleteTraining true now (saveTraining form now iso s)).trainings = s.trainings := by
  have hsave := saveTraining_add form now iso s hadd
  have hkeep : s.trainings.filter (fun t => t.id != now) = s.trainings := by
    rw [List.filter_eq_self]
    intro t ht
    simp only [bne_iff_ne, ne_eq]
    intro hid
    exact hnew (List.mem_map.2 ⟨t, ht, hid⟩)
  have hdel : (deleteTraining true now (saveTraining form now iso s)).trainings = s.trainings := by
    simp [deleteTraining, saveTrainings, hsave, newTraining, hkeep]
  refine ⟨hsave, ?_, ?_, hdel⟩
  · rw [hdel]
    intro t ht hid
    exact hnew (List.mem_map.2 ⟨t, ht, hid⟩)
  · rw [hdel, hsave, List.length_cons]

/-- Witness of `add_then_delete`: an add on the seed collection, then the
delete of the new id. -/
theorem add_then_delete_witness :
    (deleteTraining true 1762333200000
      (saveTraining sampleForm 1762333200000 stamp (init none stamp))).trainings =
      (init none stamp).trainings :=
  (add_then_delete sampleForm 1762333200000 stamp (init none stamp) (Or.inl rfl)
    (by decide)).2.2.2

/-- For an id other than 0 that occurs in the collection, `editTraining(id)`
then `saveTraining()` replaces the first record with that id, at its position,
by the record merged with the form data; id and `createdAt` stay, `updatedAt`
is set, and no other position changes. -/
theorem edit_then_save (form : Form) (now : Int) (iso : String) (s : State) (id : Int)
    (h0 : id ≠ 0) (hmem : id ∈ ids s) :
    ∃ (index : Nat) (old : Training),
      s.trainings[index]? = some old ∧ old.id = id ∧
      (∀ (j : Nat) (t : Training), j < index → s.trainings[j]? = some t → t.id ≠ id) ∧
      (saveTraining form now iso (editTraining id s)).trainings =
        s.trainings.set index (merged (readForm form) iso old) ∧
      (merged (readForm form) iso old).id = old.id ∧
      (merged (readForm form) iso old).createdAt = old.createdAt ∧
      (merged (readForm form) iso old).updatedAt = some iso := by
  obtain ⟨index, old, h1, h2, h3, h4⟩ := findIndex_of_mem hmem
  refine ⟨index, old, h2, h3, h4, ?_, rfl, rfl, rfl⟩
  have hedit : editTraining id s = { s with editingId := some id } := by
    unfold editTraining
    cases hfind : s.trainings.find? (fun t => t.id == id) with
    | some _ => rfl
    | none =>
      exfalso
      rw [List.find?_eq_none] at hfind
      obtain ⟨t, ht, hid⟩ := List.mem_map.1 hmem
      exact hfind t ht (by simpa using hid)
  have hmode : editing { s with editingId := some id } = some id := editing_eq_some rfl h0
  rw [hedit]
  simp [saveTraining, hmode, saveTrainings, h1, assignAt, h2]

/-- C18, the code at the failing input: the stored collection holds one record
of id 0.  `editTraining(0)` sets `editingId` to 0, which `saveTraining()` reads
as "not editing": a new record is put in front, the collection grows to two
records, and the record of id 0 is left as it was. -/
theorem edit_id_zero_adds :
    ids (init (some [zeroRecord]) stamp) = [0] ∧
    (editTraining 0 (init (some [zeroRecord]) stamp)).editingId = some 0 ∧
    ids (saveTraining sampleForm 1762333200000 stamp
      (editTraining 0 (init (some [zeroRecord]) stamp))) = [1762333200000, 0] ∧
    (saveTraining sampleForm 1762333200000 stamp
      (editTraining 0 (init (some [zeroRecord]) stamp))).trainings.length = 2 ∧
    (saveTraining sampleForm 1762333200000 stamp
      (editTraining 0 (init (some [zeroRecord]) stamp))).trainings[1]? = some zeroRecord := by
  decide

/-- C19: operations that target an id absent from the collection are silent
no-ops.  For an id that matches no record, `saveTraining` in update mode
(`editingId` is that id, which is then not 0), a confirmed `deleteTraining` and
`approveTraining` each leave the list of records as it was; the first two
write to the storage slot what saving that same list writes, the third does
nothing at all. -/
theorem absent_id_noop (form : Form) (now : Int) (iso : String) (s : State) (id : Int)
    (habsent : id ∉ ids s) :
    (s.editingId = some id → id ≠ 0 →
      (saveTraining form now iso s).trainings = s.trainings ∧
      (saveTraining form now iso s).stored = (saveTrainings s).stored) ∧
    ((deleteTraining true id s).trainings = s.trainings ∧
      (deleteTraining true id s).stored = (saveTrainings s).stored) ∧
    approveTraining id s = s := by
  have hnone : findIndex (fun t => t.id == id) s.trainings = none := findIndex_absent habsent
  have hkeep : s.trainings.filter (fun t => t.id != id) = s.trainings := by
    rw [List.filter_eq_self]
    intro t ht
    simp only [bne_iff_ne, ne_eq]
    intro hid
    exact habsent (List.mem_map.2 ⟨t, ht, hid⟩)
  refine ⟨?_, ?_, ?_⟩
  · intro hedit h0
    simp [saveTraining, editing_eq_some hedit h0, hnone, assignAt, saveTrainings]
  · simp [deleteTraining, saveTrainings, hkeep]
  · simp [approveTraining, hnone]

/-- Witness of `absent_id_noop`: the id 99 on the seed collection, with
`editingId` left at 99. -/
theorem absent_id_noop_witness :
    ((saveTraining sampleForm 1762333200000 stamp
        { init none stamp with editingId := some 99 }).trainings =
        (init none stamp).trainings ∧
      (saveTraining sampleForm 1762333200000 stamp
        { init none stamp with editingId := some 99 }).stored =
        (saveTrainings { init none stamp with editingId := some 99 }).stored) ∧
    ((deleteTraining true 99 (init none stamp)).trainings = (init none stamp).trainings ∧
      (deleteTraining true 99 (init none stamp)).stored =
        (saveTrainings (init none stamp)).stored) ∧
    approveTraining 99 (init none stamp) = init none stamp :=
  ⟨(absent_id_noop sampleForm 1762333200000 stamp { init none stamp with editingId := some 99 }
      99 (by decide)).1 rfl (by decide),
   (absent_id_noop sampleForm 1762333200000 stamp (init none stamp) 99 (by decide)).2.1,
   (absent_id_noop sampleForm 1762333200000 stamp (init none stamp) 99 (by decide)).2.2⟩

/-- C20: for a collection with pairwise distinct ids and the id of a pending
record in it, `approveTraining(id)` changes only that record's status, to
`active`: every other field of the record (`createdAt` and `updatedAt`
included), every other record, the order and the length of the collection are
as before, and so are the page, the filtered positions and `editingId`. -/
theorem approveTraining_only_status (id : Int) (s : State) (t : Training)
    (hnodup : (ids s).Nodup) (ht : t ∈ s.trainings) (hid : t.id = id)
    (_hpending : t.status = "pending") :
    (approveTraining id s).trainings =
      s.trainings.map (fun r => if r.id = id then { r with status := "active" } else r) ∧
    (approveTraining id s).trainings.length = s.trainings.length ∧
    (∀ (i : Nat) (r : Training), s.trainings[i]? = some r →
      (approveTraining id s).trainings[i]? =
        some (if r.id = id then { r with status := "active" } else r)) ∧
    (approveTraining id s).currentPage = s.currentPage ∧
    (approveTraining id s).filtered = s.filtered ∧
    (approveTraining id s).editingId = s.editingId := by
  have hmem : id ∈ ids s := List.mem_map.2 ⟨t, ht, hid⟩
  obtain ⟨index, old, h1, _, _, _⟩ := findIndex_of_mem hmem
  have hmap := assignAt_findIndex_of_nodup id (fun r => { r with status := "active" })
    s.trainings hnodup
  rw [h1] at hmap
  have happrove : approveTraining id s =
      { s with
        trainings :=
          s.trainings.map (fun r => if r.id = id then { r with status := "active" } else r),
        stored := some
          ((s.trainings.map
            (fun r => if r.id = id then { r with status := "active" } else r)).map
            serialized) } := by
    simp only [approveTraining, h1, hmap, saveTrainings]
  rw [happrove]
  refine ⟨rfl, by simp, ?_, rfl, rfl, rfl⟩
  intro i r hir
  simp [List.getElem?_map, hir]

/-- Witness of `approveTraining_only_status`: the pending seed record, id 3. -/
theorem approveTraining_only_status_witness :
    (approveTraining 3 (init none stamp)).trainings =
      (init none stamp).trainings.map
        (fun r => if r.id = 3 then { r with status := "active" } else r) :=
  (approveTraining_only_status 3 (init none stamp)
    { id := 3, title := "Professional Fashion Design",
      description := "Master pattern making, sewing techniques, and fashion illustration.",
      category := "creative", type := "physical", price := Price.amount 80000,
      duration := "4 months", provider := "Style Academy", location := some "Abuja, FCT",
      image := some "https://images.unsplash.com/photo-1558769132-cb1aea1f1c1c?w=800",
      status := "pending", featured := false, createdAt := stamp, updatedAt := none }
    (by decide) (by decide) rfl rfl).1

end AdminTrainings

namespace Pagination

/-! ## The pages as a partition -/

theorem slice_page_index {α : Type} (l : List α) (size i : Nat) :
    TrainingFilters.slice l (((i : Int) + 1 - 1) * size) (((i : Int) + 1 - 1) * size + size) =
      (l.drop (i * size)).take size := by
  have h := slice_page l size (i + 1) (Nat.le_add_left 1 i)
  simpa using h

theorem pages_flatten {α : Type} (l : List α) (size k : Nat) :
    ((List.range k).map (fun i => (l.drop (i * size)).take size)).flatten =
      l.take (k * size) := by
  induction k with
  | zero => simp
  | succ k ih =>
    rw [List.range_succ, List.map_append, List.flatten_append, ih, Nat.succ_mul,
      List.take_add]
    simp

theorem length_le_ceil_mul (n size : Nat) (hsize : 1 ≤ size) :
    n ≤ ⌈(n : ℚ) / size⌉₊ * size := by
  have hpos : (0 : ℚ) < size := by exact_mod_cast hsize
  have h := Nat.le_ceil ((n : ℚ) / size)
  rw [div_le_iff₀ hpos] at h
  exact_mod_cast h

/-- C26: the pages partition the filtered list.  For a page size of at least
1, the slices rendered for the pages 1 to the ceiling of length / size, put
one after the other, are the filtered list itself, in the public and in the
admin controller. -/
theorem pages_partition (s : TrainingFilters.State) (a : AdminTrainings.State)
    (hs : 1 ≤ s.itemsPerPage) (ha : 1 ≤ a.itemsPerPage) :
    ((List.range ⌈(s.filteredTrainings.length : ℚ) / s.itemsPerPage⌉₊).map
      (fun (i : Nat) => TrainingFilters.pageTrainings { s with currentPage := (i : Int) + 1 })).flatten =
      s.filteredTrainings ∧
    ((List.range ⌈((AdminTrainings.filteredTrainings a).length : ℚ) / a.itemsPerPage⌉₊).map
      (fun (i : Nat) => AdminTrainings.pageTrainings { a with currentPage := (i : Int) + 1 })).flatten =
      AdminTrainings.filteredTrainings a := by
  constructor
  · have hpage : ∀ i : Nat,
        TrainingFilters.pageTrainings { s with currentPage := (i : Int) + 1 } =
          (s.filteredTrainings.drop (i * s.itemsPerPage)).take s.itemsPerPage := by
      intro i
      simp only [TrainingFilters.pageTrainings]
      exact slice_page_index s.filteredTrainings s.itemsPerPage i
    rw [funext hpage, pages_flatten]
    exact List.take_of_length_le (length_le_ceil_mul _ _ hs)
  · have hpage : ∀ i : Nat,
        AdminTrainings.pageTrainings { a with currentPage := (i : Int) + 1 } =
          ((AdminTrainings.filteredTrainings a).drop (i * a.itemsPerPage)).take
            a.itemsPerPage := by
      intro i
      simp only [AdminTrainings.pageTrainings]
      exact slice_page_index (AdminTrainings.filteredTrainings a) a.itemsPerPage i
    rw [funext hpage, pages_flatten]
    exact List.take_of_length_le (length_le_ceil_mul _ _ ha)

/-- Witness of `pages_partition`: the public and the admin seed state. -/
theorem pages_partition_witness :
    ((List.range ⌈((TrainingFilters.afterApplyFilters
        TrainingFilters.emptyDom).filteredTrainings.length : ℚ) /
        (TrainingFilters.afterApplyFilters TrainingFilters.emptyDom).itemsPerPage⌉₊).map
      (fun (i : Nat) => TrainingFilters.pageTrainings
        { TrainingFilters.afterApplyFilters TrainingFilters.emptyDom with currentPage := (i : Int) + 1 })).flatten =
      (TrainingFilters.afterApplyFilters TrainingFilters.emptyDom).filteredTrainings ∧
    ((List.range ⌈((AdminTrainings.filteredTrainings
        (AdminTrainings.init none AdminTrainings.stamp)).length : ℚ) /
        (AdminTrainings.init none AdminTrainings.stamp).itemsPerPage⌉₊).map
      (fun (i : Nat) => AdminTrainings.pageTrainings
        { AdminTrainings.init none AdminTrainings.stamp with
          currentPage := (i : Int) + 1 })).flatten =
      AdminTrainings.filteredTrainings (AdminTrainings.init none AdminTrainings.stamp) :=
  pages_partition (TrainingFilters.afterApplyFilters TrainingFilters.emptyDom)
    (AdminTrainings.init none AdminTrainings.stamp) (by decide) (by decide)

end Pagination

namespace AdminTrainings

open TrainingFilters (isWhiteSpace stripSign isDecimalDigit numberOf)

/-! ## Persistence -/

theorem map_serialized_of_finite (l : List Training)
    (h : ∀ t ∈ l, priceFinite t.price = true) : l.map serialized = l := by
  conv_rhs => rw [← List.map_id l]
  apply List.map_congr_left
  intro t ht
  have hfin := h t ht
  cases hp : t.price with
  | amount value =>
    cases t
    simp only at hp
    simp [serialized, jsonPrice, hp]
  | nan => simp [hp, priceFinite] at hfin
  | infinity negative => simp [hp, priceFinite] at hfin
  | null => simp [hp, priceFinite] at hfin

/-- C21, refuted as stated: a record added with the text `abc` in the price
field holds the price `NaN`; saving and loading the collection gives that
record back with the price `null`, so the collection is not restored. -/
theorem reload_loses_nan_price :
    ((saveTraining wordPriceForm 1762333200000 stamp (init none stamp)).trainings.map
      (fun t => t.price)).head? = some Price.nan ∧
    ((loadTrainings stamp (saveTrainings
      (saveTraining wordPriceForm 1762333200000 stamp (init none stamp)))).trainings.map
      (fun t => t.price)).head? = some Price.null ∧
    (loadTrainings stamp (saveTrainings
      (saveTraining wordPriceForm 1762333200000 stamp (init none stamp)))).trainings ≠
      (saveTraining wordPriceForm 1762333200000 stamp (init none stamp)).trainings := by
  decide

theorem parseFloat_overflow :
    parseFloat "1e999" = Price.infinity false ∧ parseFloat "-1e999" = Price.infinity true := by
  have h1 : stripSign (("1e999".data).dropWhile isWhiteSpace) = (false, "1e999".data) := by
    decide
  have h2 : stripSign (("-1e999".data).dropWhile isWhiteSpace) = (true, "1e999".data) := by
    decide
  have h3 : ("Infinity".data.isPrefixOf "1e999".data) = false := by decide
  have h4 : ("1e999".data).takeWhile isDecimalDigit = ['1'] := by decide
  have h5 : ("1e999".data).dropWhile isDecimalDigit = "e999".data := by decide
  have h6 : numberOf 10 (['1'] ++ []) = 1 := by decide
  have h7 : exponentOf ['e', '9', '9', '9'] = 999 := by decide
  have h8 : ¬ ('e' : Char) = '.' := by decide
  constructor
  · simp only [parseFloat, parseFloatChars, h1, h3, h4, h5, if_neg h8, h6, h7]
    norm_num
    intro h
    exact absurd h (by norm_num [overflowBound])
  · simp only [parseFloat, parseFloatChars, h2, h3, h4, h5, if_neg h8, h6, h7]
    norm_num
    intro h
    exact absurd h (by norm_num [overflowBound])

/-- The bound of `parseFloat` lies where JavaScript has it: the literal
`1.7976931348623158e308` is still a finite number and `1.7976931348623159e308`
is `Infinity`. -/
theorem parseFloat_overflow_boundary :
    parseFloat "1.7976931348623158e308" = Price.amount (17976931348623158 * 10 ^ 292) ∧
    parseFloat "1.7976931348623159e308" = Price.infinity false := by
  have h1 : stripSign (("1.7976931348623158e308".data).dropWhile isWhiteSpace) =
      (false, "1.7976931348623158e308".data) := by decide
  have h2 : stripSign (("1.7976931348623159e308".data).dropWhile isWhiteSpace) =
      (false, "1.7976931348623159e308".data) := by decide
  have h3 : ("Infinity".data.isPrefixOf "1.7976931348623158e308".data) = false := by decide
  have h4 : ("Infinity".data.isPrefixOf "1.7976931348623159e308".data) = false := by decide
  have h5 : ("1.7976931348623158e308".data).takeWhile isDecimalDigit = ['1'] := by decide
  have h6 : ("1.7976931348623159e308".data).takeWhile isDecimalDigit = ['1'] := by decide
  have h7 : ("1.7976931348623158e308".data).dropWhile isDecimalDigit =
      '.' :: "7976931348623158e308".data := by decide
  have h8 : ("1.7976931348623159e308".data).dropWhile isDecimalDigit =
      '.' :: "7976931348623159e308".data := by decide
  have h9 : ("7976931348623158e308".data).takeWhile isDecimalDigit = "7976931348623158".data := by
    decide
  have h10 : ("7976931348623159e308".data).takeWhile isDecimalDigit = "7976931348623159".data := by
    decide
  have h11 : ("7976931348623158e308".data).dropWhile isDecimalDigit = "e308".data := by decide
  have h12 : ("7976931348623159e308".data).dropWhile isDecimalDigit = "e308".data := by decide
  have h13 : numberOf 10 (['1'] ++ "7976931348623158".data) = 17976931348623158 := by decide
  have h14 : numberOf 10 (['1'] ++ "7976931348623159".data) = 17976931348623159 := by decide
  have h15 : exponentOf "e308".data = 308 := by decide
  have h16 : ("7976931348623158".data).length = 16 := by decide
  have h17 : ("7976931348623159".data).length = 16 := by decide
  have h18 : (['1'] : List Char).isEmpty = false := rfl
  constructor
  · simp only [parseFloat, parseFloatChars, h1, h3, h5, h7, if_true, h9, h11, h13, h15, h16, h18]
    norm_num [overflowBound]
  · simp only [parseFloat, parseFloatChars, h2, h4, h6, h8, if_true, h10, h12, h14, h15, h17, h18]
    norm_num [overflowBound]

theorem getElem?_map_serialized (l : List Training) (i : Nat) (t : Training)
    (h : l[i]? = some t) : (l.map serialized)[i]? = some (serialized t) := by
  rw [List.getElem?_map, h]
  rfl

/-- C21, amended: for every collection in which every price is a finite number
(the empty collection included), `saveTrainings` followed by `loadTrainings`
restores that same collection, as the collection and as the filtered list;
`loadTrainings` returns the three seed records (ids 1, 2, 3) and writes them to
the slot when nothing is stored, and returns what is stored, leaving the slot as
it is, otherwise.  For every collection the records come back in the same
number and order; a record whose price is `NaN`, `Infinity` or `-Infinity`
comes back with the price `null` and every other field as it was, and a record
whose price is a finite number comes back as it was.  The price text `1e999`
is read as `Infinity` and `-1e999` as `-Infinity`, both written as `null`. -/
theorem save_then_load (iso : String) (s : State) :
    ((∀ t ∈ s.trainings, priceFinite t.price = true) →
      (loadTrainings iso (saveTrainings s)).trainings = s.trainings ∧
      filteredTrainings (loadTrainings iso (saveTrainings s)) = s.trainings) ∧
    (s.trainings = [] → (loadTrainings iso (saveTrainings s)).trainings = []) ∧
    (s.stored = none →
      (loadTrainings iso s).trainings = seedTrainings iso ∧
      ids (loadTrainings iso s) = [1, 2, 3] ∧
      (loadTrainings iso s).stored = some (seedTrainings iso)) ∧
    (∀ l : List Training, s.stored = some l →
      (loadTrainings iso s).trainings = l ∧ (loadTrainings iso s).stored = some l) ∧
    (loadTrainings iso (saveTrainings s)).trainings.length = s.trainings.length ∧
    (∀ (i : Nat) (t : Training), s.trainings[i]? = some t →
      (t.price = Price.nan ∨ t.price = Price.infinity false ∨
        t.price = Price.infinity true) →
      (loadTrainings iso (saveTrainings s)).trainings[i]? =
        some { t with price := Price.null }) ∧
    (∀ (i : Nat) (t : Training), s.trainings[i]? = some t → priceFinite t.price = true →
      (loadTrainings iso (saveTrainings s)).trainings[i]? = some t) ∧
    (parseFloat "1e999" = Price.infinity false ∧ parseFloat "-1e999" = Price.infinity true ∧
      jsonPrice (parseFloat "1e999") = Price.null ∧
      jsonPrice (parseFloat "-1e999") = Price.null) := by
  have hload : (loadTrainings iso (saveTrainings s)).trainings = s.trainings.map serialized := by
    simp [loadTrainings, saveTrainings]
  refine ⟨?_, ?_, ?_, ?_, ?_, ?_, ?_, ?_⟩
  · intro hfin
    have h := map_serialized_of_finite s.trainings hfin
    simp [loadTrainings, saveTrainings, filteredTrainings, h, filterMap_allPositions]
  · intro hnil
    simp [loadTrainings, saveTrainings, hnil]
  · intro hnone
    simp [loadTrainings, saveTrainings, hnone, ids, seedTrainings, serialized, jsonPrice]
  · intro l hl
    simp [loadTrainings, hl]
  · rw [hload, List.length_map]
  · intro i t ht hprice
    rw [hload, getElem?_map_serialized _ i t ht]
    rcases hprice with h | h | h <;> simp [serialized, jsonPrice, h]
  · intro i t ht hfin
    rw [hload, getElem?_map_serialized _ i t ht]
    cases hp : t.price with
    | amount value =>
      cases t
      simp only at hp
      simp [serialized, jsonPrice, hp]
    | nan => simp [hp, priceFinite] at hfin
    | infinity negative => simp [hp, priceFinite] at hfin
    | null => simp [hp, priceFinite] at hfin
  · obtain ⟨h1, h2⟩ := parseFloat_overflow
    rw [h1, h2]
    exact ⟨rfl, rfl, rfl, rfl⟩

/-- Witness of `save_then_load`: the seed collection, whose prices are finite,
the two cases of the slot, and the collection of one record with the price
`Infinity` followed by one with a finite price. -/
theorem save_then_load_witness :
    ((loadTrainings stamp (saveTrainings (init none stamp))).trainings =
        (init none stamp).trainings ∧
      filteredTrainings (loadTrainings stamp (saveTrainings (init none stamp))) =
        (init none stamp).trainings) ∧
    (loadTrainings stamp (saveTrainings (constructed none))).trainings = [] ∧
    ((loadTrainings stamp (constructed none)).trainings = seedTrainings stamp ∧
      ids (loadTrainings stamp (constructed none)) = [1, 2, 3] ∧
      (loadTrainings stamp (constructed none)).stored = some (seedTrainings stamp)) ∧
    ((loadTrainings stamp (constructed (some []))).trainings = [] ∧
      (loadTrainings stamp (constructed (some []))).stored = some []) ∧
    (loadTrainings stamp (saveTrainings
        { constructed none with
          trainings := [{ numbered 7 with price := Price.infinity false },
            numbered 8] })).trainings[0]? =
      some { numbered 7 with price := Price.null } ∧
    (loadTrainings stamp (saveTrainings
        { constructed none with
          trainings := [{ numbered 7 with price := Price.infinity false },
            numbered 8] })).trainings[1]? =
      some (numbered 8) :=
  ⟨(save_then_load stamp (init none stamp)).1 (by decide),
   (save_then_load stamp (constructed none)).2.1 rfl,
   (save_then_load stamp (constructed none)).2.2.1 rfl,
   (save_then_load stamp (constructed (some []))).2.2.2.1 [] rfl,
   (save_then_load stamp
      { constructed none with
        trainings := [{ numbered 7 with price := Price.infinity false },
          numbered 8] }).2.2.2.2.2.1 0
      { numbered 7 with price := Price.infinity false } rfl (Or.inr (Or.inl rfl)),
   (save_then_load stamp
      { constructed none with
        trainings := [{ numbered 7 with price := Price.infinity false },
          numbered 8] }).2.2.2.2.2.2.1 1 (numbered 8) rfl rfl⟩

/-! ## Validation and the stored price -/

theorem parseFloat_minus_five : parseFloat "-5" = Price.amount (-5) := by
  have h1 : stripSign (("-5".data).dropWhile isWhiteSpace) = (true, ['5']) := by decide
  have h2 : ("Infinity".data.isPrefixOf ['5']) = false := by decide
  have h3 : (['5'] : List Char).takeWhile isDecimalDigit = ['5'] := by decide
  have h4 : (['5'] : List Char).dropWhile isDecimalDigit = [] := by decide
  have h5 : numberOf 10 ['5'] = 5 := by decide
  have h6 : ¬ overflowBound ≤ (5 : ℚ) := by
    rw [overflowBound]
    norm_num
  simp only [parseFloat, parseFloatChars, h1, h2, h3, h4]
  norm_num [h5, exponentOf, h6]

theorem priceRule_minus_five : FormValidator.priceRule "-5" = false := by
  have h : FormValidator.isNaN "-5" = false := by decide
  simp only [FormValidator.priceRule, h, parseFloat_minus_five, FormValidator.numGe,
    FormValidator.numLt]
  norm_num
  decide

/-- C22, the code at the failing input: on the seed collection, whose prices
are all numbers at least 0, a form with the price `-5`, which the price rule
of the validator rejects, is saved all the same: the new record holds the price
-5, in the collection and in the storage slot.  A form with the text `abc`,
rejected too, leaves a record with the price `NaN`. -/
theorem negative_price_persisted :
    (∀ t ∈ (init none stamp).trainings, priceNonneg t.price = true) ∧
    FormValidator.priceRule "-5" = false ∧
    ((saveTraining negativePriceForm 1762333200000 stamp (init none stamp)).trainings.map
      (fun t => t.price)).head? = some (Price.amount (-5)) ∧
    (((saveTraining negativePriceForm 1762333200000 stamp (init none stamp)).stored.getD []).map
      (fun t => t.price)).head? = some (Price.amount (-5)) ∧
    priceNonneg (Price.amount (-5)) = false ∧
    FormValidator.priceRule "abc" = false ∧
    ((saveTraining wordPriceForm 1762333200000 stamp (init none stamp)).trainings.map
      (fun t => t.price)).head? = some Price.nan := by
  have hadd : (init none stamp).editingId = none ∨ (init none stamp).editingId = some 0 :=
    Or.inl rfl
  have hsave := saveTraining_add negativePriceForm 1762333200000 stamp (init none stamp) hadd
  have hprice : (readForm negativePriceForm).price = Price.amount (-5) := by
    simp only [readForm, negativePriceForm, sampleForm, parseFloat_minus_five]
  refine ⟨?_, priceRule_minus_five, ?_, ?_, ?_, by decide, by decide⟩
  · intro t ht
    simp only [init, loadTrainings, constructed, saveTrainings, seedTrainings, List.mem_cons,
      List.mem_singleton, List.not_mem_nil, or_false] at ht
    rcases ht with h | h | h <;> subst h <;> simp [priceNonneg]
  · rw [hsave]
    simp [newTraining, hprice]
  · have hstored : (saveTraining negativePriceForm 1762333200000 stamp (init none stamp)).stored =
        some ((saveTraining negativePriceForm 1762333200000 stamp
          (init none stamp)).trainings.map serialized) := by
      simp [saveTraining, saveTrainings]
    rw [hstored, hsave]
    simp [newTraining, hprice, serialized, jsonPrice]
  · simp [priceNonneg]

/-! ## The current page after a delete -/

/-- C27, the code at the failing input: eleven stored records, page 2 (which
shows the eleventh), then the delete of that record.  `deleteTraining` rebuilds
the filtered list and leaves `currentPage` at 2: ten records remain, the page
count is 1, and the rendered page is empty although the filtered list is
not. -/
theorem delete_leaves_page_out_of_range :
    (goToPage 2 (init (some elevenRecords) stamp)).currentPage = 2 ∧
    (pageTrainings (goToPage 2 (init (some elevenRecords) stamp))).map (fun t => t.id) = [11] ∧
    (deleteTraining true 11 (goToPage 2 (init (some elevenRecords) stamp))).currentPage = 2 ∧
    (filteredTrainings
      (deleteTraining true 11 (goToPage 2 (init (some elevenRecords) stamp)))).length = 10 ∧
    totalPages (deleteTraining true 11 (goToPage 2 (init (some elevenRecords) stamp))) =
      some 1 ∧
    pageTrainings (deleteTraining true 11 (goToPage 2 (init (some elevenRecords) stamp))) =
      [] := by
  decide

end AdminTrainings

namespace FormValidator

open TrainingFilters (isWhiteSpace isDecimalDigit includes)
open AdminTrainings (Price parseFloat)

/-! ## The regular-expression test -/

namespace Regex

theorem nullable_iff (r : Regex) : r.nullable = true ↔ r.Matches [] := by
  induction r with
  | never => simp [nullable, Matches]
  | empty => simp [nullable, Matches]
  | cls accepts => simp [nullable, Matches]
  | alt r s ihr ihs => simp [nullable, Matches, ihr, ihs]
  | seq r s ihr ihs =>
    simp only [nullable, Matches, Bool.and_eq_true, ihr, ihs]
    constructor
    · rintro ⟨hr, hs⟩
      exact ⟨[], [], rfl, hr, hs⟩
    · rintro ⟨x, y, hxy, hr, hs⟩
      have hx : x = [] := (List.append_eq_nil.1 hxy.symm).1
      have hy : y = [] := (List.append_eq_nil.1 hxy.symm).2
      subst hx hy
      exact ⟨hr, hs⟩
  | star r _ =>
    simp only [nullable, Matches, true_iff]
    exact ⟨[], rfl, by simp⟩

theorem star_cons_iff (r : Regex) (c : Char) (t : List Char) :
    (star r).Matches (c :: t) ↔
      ∃ x y, t = x ++ y ∧ r.Matches (c :: x) ∧ (star r).Matches y := by
  constructor
  · rintro ⟨parts, hjoin, hall⟩
    induction parts with
    | nil => simp at hjoin
    | cons p ps ih =>
      cases p with
      | nil =>
        exact ih (by simpa using hjoin) (fun x hx => hall x (List.mem_cons_of_mem _ hx))
      | cons d x =>
        simp only [List.flatten_cons, List.cons_append, List.cons.injEq] at hjoin
        obtain ⟨hd, ht⟩ := hjoin
        subst hd
        exact ⟨x, ps.flatten, ht, hall _ (List.mem_cons_self _ _),
          ps, rfl, fun y hy => hall y (List.mem_cons_of_mem _ hy)⟩
  · rintro ⟨x, y, ht, hx, parts, hy, hall⟩
    refine ⟨(c :: x) :: parts, by simp [ht, hy], ?_⟩
    intro z hz
    rcases List.mem_cons.1 hz with h | h
    · rw [h]; exact hx
    · exact hall z h

theorem deriv_iff (r : Regex) (c : Char) (w : List Char) :
    (r.deriv c).Matches w ↔ r.Matches (c :: w) := by
  induction r generalizing w with
  | never => simp [deriv, Matches]
  | empty => simp [deriv, Matches]
  | cls accepts =>
    simp only [deriv, Matches]
    by_cases h : accepts c = true
    · simp only [h, if_true, Matches]
      constructor
      · intro hw
        exact ⟨c, by rw [hw], h⟩
      · rintro ⟨d, hd, _⟩
        simp only [List.cons.injEq] at hd
        exact hd.2
    · simp only [h, Bool.false_eq_true, if_false, Matches, false_iff]
      rintro ⟨d, hd, hacc⟩
      simp only [List.cons.injEq] at hd
      rw [← hd.1] at hacc
      exact h hacc
  | alt r s ihr ihs => simp [deriv, Matches, ihr, ihs]
  | seq r s ihr ihs =>
    have hcons : (seq r s).Matches (c :: w) ↔
        (r.Matches [] ∧ s.Matches (c :: w)) ∨
          ∃ x y, w = x ++ y ∧ r.Matches (c :: x) ∧ s.Matches y := by
      simp only [Matches]
      constructor
      · rintro ⟨x, y, hxy, hr, hs⟩
        cases x with
        | nil =>
          left
          simp only [List.nil_append] at hxy
          rw [hxy]
          exact ⟨hr, hs⟩
        | cons d x =>
          right
          simp only [List.cons_append, List.cons.injEq] at hxy
          obtain ⟨hd, hw⟩ := hxy
          subst hd
          exact ⟨x, y, hw, hr, hs⟩
      · rintro (⟨hr, hs⟩ | ⟨x, y, hw, hr, hs⟩)
        · exact ⟨[], c :: w, rfl, hr, hs⟩
        · exact ⟨c :: x, y, by simp [hw], hr, hs⟩
    have hleft : (seq (r.deriv c) s).Matches w ↔
        ∃ x y, w = x ++ y ∧ r.Matches (c :: x) ∧ s.Matches y := by
      simp only [Matches, ihr]
    rw [hcons]
    by_cases hn : r.nullable = true
    · have hnil : r.Matches [] := (nullable_iff r).1 hn
      simp only [deriv, hn, if_true]
      show (seq (r.deriv c) s).Matches w ∨ (s.deriv c).Matches w ↔ _
      rw [hleft, ihs]
      constructor
      · rintro (h | h)
        · exact Or.inr h
        · exact Or.inl ⟨hnil, h⟩
      · rintro (h | h)
        · exact Or.inr h.2
        · exact Or.inl h
    · have hnil : ¬ r.Matches [] := fun h => hn ((nullable_iff r).2 h)
      simp only [deriv, hn, Bool.false_eq_true, if_false]
      rw [hleft]
      constructor
      · exact fun h => Or.inr h
      · rintro (h | h)
        · exact absurd h.1 hnil
        · exact h
  | star r ih =>
    rw [star_cons_iff]
    simp only [deriv]
    show (∃ x y, w = x ++ y ∧ (r.deriv c).Matches x ∧ (star r).Matches y) ↔ _
    simp only [ih]

/-- The test by derivatives decides the matching relation. -/
theorem test_iff (r : Regex) (w : List Char) : r.test w = true ↔ r.Matches w := by
  induction w generalizing r with
  | nil => simp [test, nullable_iff]
  | cons c w ih => simp [test, ih, deriv_iff]

end Regex

namespace Regex

theorem seq_matches (r s : Regex) (w : List Char) :
    (seq r s).Matches w ↔ ∃ x y, w = x ++ y ∧ r.Matches x ∧ s.Matches y :=
  Iff.rfl

theorem alt_matches (r s : Regex) (w : List Char) :
    (alt r s).Matches w ↔ r.Matches w ∨ s.Matches w :=
  Iff.rfl

theorem cls_matches (accepts : Char → Bool) (w : List Char) :
    (cls accepts).Matches w ↔ ∃ c, w = [c] ∧ accepts c = true :=
  Iff.rfl

theorem chr_matches (c : Char) (w : List Char) : (chr c).Matches w ↔ w = [c] := by
  simp only [chr, Matches, beq_iff_eq]
  constructor
  · rintro ⟨d, hw, hd⟩
    rw [hw, hd]
  · intro hw
    exact ⟨c, hw, rfl⟩

theorem lit_matches (cs w : List Char) : (lit cs).Matches w ↔ w = cs := by
  induction cs generalizing w with
  | nil => simp [lit, Matches]
  | cons c rest ih =>
    simp only [lit, Matches]
    constructor
    · rintro ⟨x, y, hw, hx, hy⟩
      have hx' : x = [c] := (chr_matches c x).1 hx
      rw [hw, hx', (ih y).1 hy]
      rfl
    · intro hw
      exact ⟨[c], rest, by rw [hw]; rfl, (chr_matches c [c]).2 rfl, (ih rest).2 rfl⟩

theorem times_cls_matches (accepts : Char → Bool) (n : Nat) (w : List Char) :
    (times n (cls accepts)).Matches w ↔ w.length = n ∧ ∀ c ∈ w, accepts c = true := by
  induction n generalizing w with
  | zero =>
    simp only [times, Matches]
    constructor
    · intro hw
      subst hw
      simp
    · intro h
      exact List.length_eq_zero.1 h.1
  | succ n ih =>
    simp only [times, Matches]
    constructor
    · rintro ⟨x, y, hw, ⟨c, hx, hc⟩, hy⟩
      obtain ⟨hlen, hall⟩ := (ih y).1 hy
      subst hw hx
      refine ⟨by simp [hlen], ?_⟩
      intro d hd
      simp only [List.singleton_append, List.mem_cons] at hd
      rcases hd with h | h
      · rw [h]; exact hc
      · exact hall d h
    · rintro ⟨hlen, hall⟩
      cases w with
      | nil => simp at hlen
      | cons c rest =>
        refine ⟨[c], rest, rfl, ⟨c, rfl, hall c (List.mem_cons_self c rest)⟩, (ih rest).2 ⟨?_, ?_⟩⟩
        · simpa using hlen
        · exact fun d hd => hall d (List.mem_cons_of_mem c hd)

theorem star_cls_matches (accepts : Char → Bool) (w : List Char)
    (h : ∀ c ∈ w, accepts c = true) : (star (cls accepts)).Matches w := by
  refine ⟨w.map (fun c => [c]), ?_, ?_⟩
  · induction w with
    | nil => rfl
    | cons c rest ih =>
      simp only [List.map_cons, List.flatten_cons, List.singleton_append, List.cons.injEq,
        true_and]
      exact ih (fun d hd => h d (List.mem_cons_of_mem c hd))
  · intro x hx
    obtain ⟨c, hc, hxc⟩ := List.mem_map.1 hx
    exact ⟨c, hxc.symm, h c hc⟩

end Regex

/-! ## Phone numbers -/

theorem seven_to_nine (c : Char) :
    (55 ≤ c.toNat ∧ c.toNat ≤ 57) ↔ (c = '7' ∨ c = '8' ∨ c = '9') := by
  constructor
  · rintro ⟨h1, h2⟩
    have h : c.toNat = 55 ∨ c.toNat = 56 ∨ c.toNat = 57 := by omega
    rcases h with h | h | h
    · exact Or.inl (TrainingFilters.char_eq_of_toNat c 55 h)
    · exact Or.inr (Or.inl (TrainingFilters.char_eq_of_toNat c 56 h))
    · exact Or.inr (Or.inr (TrainingFilters.char_eq_of_toNat c 57 h))
  · rintro (h | h | h) <;> subst h <;> decide

theorem zero_or_one (c : Char) :
    (48 ≤ c.toNat ∧ c.toNat ≤ 49) ↔ (c = '0' ∨ c = '1') := by
  constructor
  · rintro ⟨h1, h2⟩
    have h : c.toNat = 48 ∨ c.toNat = 49 := by omega
    rcases h with h | h
    · exact Or.inl (TrainingFilters.char_eq_of_toNat c 48 h)
    · exact Or.inr (TrainingFilters.char_eq_of_toNat c 49 h)
  · rintro (h | h) <;> subst h <;> decide

/-- What `phoneRegex` matches: a prefix `+234`, `234` or `0`, a digit 7 to 9, a
digit 0 or 1, then exactly eight digits. -/
theorem phoneRegex_matches (w : List Char) :
    phoneRegex.Matches w ↔
      ∃ (pre : List Char) (a b : Char) (digits : List Char),
        w = pre ++ a :: b :: digits ∧
        (pre = "+234".data ∨ pre = "234".data ∨ pre = "0".data) ∧
        (a = '7' ∨ a = '8' ∨ a = '9') ∧ (b = '0' ∨ b = '1') ∧
        digits.length = 8 ∧ ∀ c ∈ digits, isDecimalDigit c = true := by
  simp only [phoneRegex, Regex.seq_matches, Regex.alt_matches, Regex.cls_matches,
    Regex.lit_matches, Regex.times_cls_matches, decide_eq_true_eq, seven_to_nine, zero_or_one]
  constructor
  · rintro ⟨pre, y, hw, hpre, x2, y2, hy, ⟨a, hx2, ha⟩, x3, digits, hy2, ⟨b, hx3, hb⟩, hlen,
      hall⟩
    refine ⟨pre, a, b, digits, ?_, hpre, ha, hb, hlen, hall⟩
    rw [hw, hy, hx2, hy2, hx3]
    rfl
  · rintro ⟨pre, a, b, digits, hw, hpre, ha, hb, hlen, hall⟩
    exact ⟨pre, a :: b :: digits, hw, hpre, [a], b :: digits, rfl, ⟨a, rfl, ha⟩, [b], digits,
      rfl, ⟨b, rfl, hb⟩, hlen, hall⟩

theorem data_ne_nil_of_ne_empty {s : String} (h : s ≠ "") : (s != "") = true := by
  simpa using h

theorem filter_dropWhile_isWhiteSpace (l : List Char) :
    (l.dropWhile isWhiteSpace).filter (fun c => !isWhiteSpace c) =
      l.filter (fun c => !isWhiteSpace c) := by
  induction l with
  | nil => rfl
  | cons c l ih =>
    cases h : isWhiteSpace c
    · simp [List.dropWhile_cons, h]
    · simp [List.dropWhile_cons, h, ih]

/-- Removing the white space of the trimmed value removes the white space of
the value. -/
theorem removeWhiteSpace_trim (s : String) :
    (removeWhiteSpace (trim s)).data = s.data.filter (fun c => !isWhiteSpace c) := by
  simp only [removeWhiteSpace, trim, List.filter_reverse, filter_dropWhile_isWhiteSpace,
    List.reverse_reverse]

theorem dropWhile_isWhiteSpace_ne_nil (l : List Char) (c : Char) (hc : c ∈ l)
    (hw : isWhiteSpace c = false) : l.dropWhile isWhiteSpace ≠ [] := by
  intro h
  have hall := List.dropWhile_eq_nil_iff.1 h c hc
  rw [hw] at hall
  exact Bool.noConfusion hall

/-- A value with a character that is not white space has a non-empty trimmed
value. -/
theorem trim_ne_empty {s : String} (h : ∃ c ∈ s.data, isWhiteSpace c = false) :
    trim s ≠ "" := by
  obtain ⟨c, hc, hw⟩ := h
  have hdw : ∃ e ∈ (s.data.dropWhile isWhiteSpace).reverse, isWhiteSpace e = false := by
    have hsub : (s.data.dropWhile isWhiteSpace).filter (fun c => !isWhiteSpace c) ≠ [] := by
      rw [filter_dropWhile_isWhiteSpace]
      intro hnil
      have hmem : c ∈ s.data.filter (fun c => !isWhiteSpace c) :=
        List.mem_filter.2 ⟨hc, by simp [hw]⟩
      rw [hnil] at hmem
      simp at hmem
    obtain ⟨e, he⟩ := List.exists_mem_of_ne_nil _ hsub
    obtain ⟨he1, he2⟩ := List.mem_filter.1 he
    exact ⟨e, List.mem_reverse.2 he1, by simpa using he2⟩
  obtain ⟨e, he, hew⟩ := hdw
  have h2 := dropWhile_isWhiteSpace_ne_nil _ e he hew
  intro hempty
  have hdata := congrArg String.data hempty
  simp only [trim] at hdata
  exact h2 (List.reverse_eq_nil_iff.1 hdata)

/-- C23: for a value whose trimmed text is not empty (it has a character that
is not white space), `validatePhone` passes iff the value with all white space
removed consists of one of the prefixes `+234`, `234` or `0`, then one digit 7
to 9, one digit 0 or 1, and exactly eight further digits, with nothing before
or after; `08031234567`, `07012345678` and `08132345678` pass and `08231234567`
fails.  The value without its white space is written out as the characters of
the value that are not white space, so numbers written with spaces, tabs or
line breaks between the digits, or around them, pass as well, and a space does
not stand for a missing digit; the no-break space and the ideographic space are
white space, the zero width space U+200B is not.  A value of white space only
has an empty trimmed value and is not tested. -/
theorem validatePhone_iff (field : Field)
    (hvalue : ∃ c ∈ field.value.data, isWhiteSpace c = false) :
    (validatePhone field = true ↔
      ∃ (pre : List Char) (a b : Char) (digits : List Char),
        field.value.data.filter (fun c => !isWhiteSpace c) = pre ++ a :: b :: digits ∧
        (pre = "+234".data ∨ pre = "234".data ∨ pre = "0".data) ∧
        (a = '7' ∨ a = '8' ∨ a = '9') ∧ (b = '0' ∨ b = '1') ∧
        digits.length = 8 ∧ ∀ c ∈ digits, isDecimalDigit c = true) ∧
    validatePhone (input "08031234567" "tel" "phone") = true ∧
    validatePhone (input "07012345678" "tel" "phone") = true ∧
    validatePhone (input "08132345678" "tel" "phone") = true ∧
    validatePhone (input "08231234567" "tel" "phone") = false ∧
    validatePhone (input "0803 123 4567" "tel" "phone") = true ∧
    validatePhone (input "  +234 803\t123\n4567 " "tel" "phone") = true ∧
    validatePhone (input "0803 123 456" "tel" "phone") = false ∧
    validatePhone (input "0803 123 45 67 8" "tel" "phone") = false ∧
    validatePhone (input "0803\u00a0123\u30004567" "tel" "phone") = true ∧
    validatePhone (input "0803\u200b1234567" "tel" "phone") = false ∧
    validatePhone (input " \t\n " "tel" "phone") = true := by
  refine ⟨?_, by decide, by decide, by decide, by decide, by decide, by decide, by decide,
    by decide, by decide, by decide, by decide⟩
  rw [← removeWhiteSpace_trim, ← phoneRegex_matches, ← Regex.test_iff]
  simp only [validatePhone, data_ne_nil_of_ne_empty (trim_ne_empty hvalue), Bool.true_and]
  cases phoneRegex.test (removeWhiteSpace (trim field.value)).data <;> simp

/-- Witness of `validatePhone_iff`: the number `0803 123 4567`, written with
spaces, passes, and without its three spaces it is `0`, `8`, `0` and the eight
digits `31234567`. -/
theorem validatePhone_iff_witness :
    validatePhone (input "0803 123 4567" "tel" "phone") = true ∧
    (input "0803 123 4567" "tel" "phone").value.data.filter (fun c => !isWhiteSpace c) =
      "0".data ++ '8' :: '0' :: "31234567".data :=
  ⟨((validatePhone_iff (input "0803 123 4567" "tel" "phone")
      ⟨'0', by decide, by decide⟩).1).2
    ⟨"0".data, '8', '0', "31234567".data, by decide, by decide, by decide, by decide,
      by decide, by decide⟩, by decide⟩

/-! ## Passwords -/

theorem lookahead_mem (accepts : Char → Bool) (rest : List Char)
    (h : lookahead (Regex.seq (Regex.star (Regex.cls isDot)) (Regex.cls accepts)) rest = true) :
    ∃ c ∈ rest, accepts c = true := by
  rw [lookahead, Regex.test_iff] at h
  obtain ⟨x, y, hrest, ⟨x1, x2, hx, _, c, hx2, hc⟩, _⟩ := h
  refine ⟨c, ?_, hc⟩
  rw [hrest, hx, hx2]
  simp

theorem lookahead_of_mem (accepts : Char → Bool) (rest : List Char)
    (hdot : ∀ d ∈ rest, isDot d = true) (c : Char) (hmem : c ∈ rest) (hc : accepts c = true) :
    lookahead (Regex.seq (Regex.star (Regex.cls isDot)) (Regex.cls accepts)) rest = true := by
  rw [lookahead, Regex.test_iff]
  obtain ⟨pre, post, hrest⟩ := List.append_of_mem hmem
  refine ⟨pre ++ [c], post, by simp [hrest], ⟨pre, [c], rfl, ?_, c, rfl, hc⟩, ?_⟩
  · apply Regex.star_cls_matches
    intro d hd
    exact hdot d (by rw [hrest]; exact List.mem_append_left _ hd)
  · exact Regex.star_cls_matches _ post (fun _ _ => rfl)

/-- On a value without line terminators the password pattern asks for a
letter and a digit. -/
theorem passwordRegexTest_iff (value : List Char)
    (hline : ∀ c ∈ value, isLineTerminator c = false) :
    passwordRegexTest value = true ↔
      (∃ c ∈ value, isLetter c = true) ∧ (∃ c ∈ value, isDecimalDigit c = true) := by
  simp only [passwordRegexTest, List.any_eq_true, Bool.and_eq_true]
  constructor
  · rintro ⟨rest, hrest, hletter, hdigit⟩
    have hsub : ∀ c ∈ rest, c ∈ value := fun c hc => ((List.mem_tails _ _).1 hrest).subset hc
    obtain ⟨c, hc, hcl⟩ := lookahead_mem isLetter rest hletter
    obtain ⟨d, hd, hdd⟩ := lookahead_mem isDecimalDigit rest hdigit
    exact ⟨⟨c, hsub c hc, hcl⟩, ⟨d, hsub d hd, hdd⟩⟩
  · rintro ⟨⟨c, hc, hcl⟩, ⟨d, hd, hdd⟩⟩
    have hdot : ∀ x ∈ value, isDot x = true := by
      intro x hx
      simp [isDot, hline x hx]
    exact ⟨value, (List.mem_tails _ _).2 (List.suffix_refl value),
      lookahead_of_mem isLetter value hdot c hc hcl,
      lookahead_of_mem isDecimalDigit value hdot d hd hdd⟩

/-- C24, refuted as stated: with a confirmation field that is present and
empty, the value `abcdefg1` passes although the two values differ; and the
two-line value `abcdefgh`, line feed, `12345678`, which has 17 characters, a
letter and a digit, fails with no confirmation field, because `.` in the
pattern does not cross a line terminator. -/
theorem password_empty_confirm_and_lines :
    validatePassword { confirmField := some "" } (input "abcdefg1" "password" "password") =
      true ∧
    trim (input "abcdefg1" "password" "password").value ≠ "" ∧
    validatePassword { confirmField := none }
      (input "abcdefgh\n12345678" "textarea" "password") = false ∧
    jsLength (trim (input "abcdefgh\n12345678" "textarea" "password").value) = 17 ∧
    (∃ c ∈ (trim (input "abcdefgh\n12345678" "textarea" "password").value).data,
      isLetter c = true) ∧
    (∃ c ∈ (trim (input "abcdefgh\n12345678" "textarea" "password").value).data,
      isDecimalDigit c = true) := by
  decide

/-- C24, amended: for a non-empty trimmed value without a line terminator,
`validatePassword` fails iff the value is shorter than 8 (its `length`), or has
no letter `a`-`z`, `A`-`Z`, or has no digit, or a confirmation field is
present, its value is not empty and differs from the trimmed value; otherwise
it passes. -/
theorem validatePassword_iff (document : Document) (field : Field)
    (hvalue : trim field.value ≠ "")
    (hline : ∀ c ∈ (trim field.value).data, isLineTerminator c = false) :
    validatePassword document field = false ↔
      jsLength (trim field.value) < 8 ∨
      (∀ c ∈ (trim field.value).data, isLetter c = false) ∨
      (∀ c ∈ (trim field.value).data, isDecimalDigit c = false) ∨
      ∃ confirmValue, document.confirmField = some confirmValue ∧ confirmValue ≠ "" ∧
        trim field.value ≠ confirmValue := by
  have hne := data_ne_nil_of_ne_empty hvalue
  have hregex := passwordRegexTest_iff (trim field.value).data hline
  simp only [validatePassword, hne, Bool.true_and]
  by_cases hlen : jsLength (trim field.value) < 8
  · simp [hlen]
  · by_cases htest : passwordRegexTest (trim field.value).data = true
    · obtain ⟨⟨c, hc, hcl⟩, ⟨d, hd, hdd⟩⟩ := hregex.1 htest
      have h1 : ¬ ∀ c ∈ (trim field.value).data, isLetter c = false := by
        intro h
        rw [h c hc] at hcl
        exact Bool.noConfusion hcl
      have h2 : ¬ ∀ c ∈ (trim field.value).data, isDecimalDigit c = false := by
        intro h
        rw [h d hd] at hdd
        exact Bool.noConfusion hdd
      simp only [hlen, htest, h1, h2, decide_False, Bool.not_true, Bool.false_eq_true, if_false,
        false_or]
      cases hconf : document.confirmField with
      | none => simp
      | some confirmValue =>
        by_cases hcv : confirmValue = ""
        · simp [hcv]
        · by_cases heq : trim field.value = confirmValue
          · simp [hcv, heq]
          · simp [hcv, heq]
    · have hfail : (∀ c ∈ (trim field.value).data, isLetter c = false) ∨
          (∀ c ∈ (trim field.value).data, isDecimalDigit c = false) := by
        by_contra hcon
        simp only [not_or, not_forall, Bool.not_eq_false] at hcon
        obtain ⟨⟨c, hc, hcl⟩, ⟨d, hd, hdd⟩⟩ := hcon
        exact htest (hregex.2 ⟨⟨c, hc, hcl⟩, ⟨d, hd, hdd⟩⟩)
      have htest' : passwordRegexTest (trim field.value).data = false := by
        simpa using htest
      simp only [hlen, htest', decide_False, Bool.not_false, if_true, Bool.false_eq_true,
        if_false, true_iff]
      rcases hfail with h | h
      · exact Or.inr (Or.inl h)
      · exact Or.inr (Or.inr (Or.inl h))

/-- Witness of `validatePassword_iff`: the value `abcdefg1` with the
confirmation value `abcdefg2`. -/
theorem validatePassword_iff_witness :
    validatePassword { confirmField := some "abcdefg2" }
        (input "abcdefg1" "password" "password") = false ↔
      jsLength (trim (input "abcdefg1" "password" "password").value) < 8 ∨
      (∀ c ∈ (trim (input "abcdefg1" "password" "password").value).data, isLetter c = false) ∨
      (∀ c ∈ (trim (input "abcdefg1" "password" "password").value).data,
        isDecimalDigit c = false) ∨
      ∃ confirmValue, (Document.mk (some "abcdefg2")).confirmField = some confirmValue ∧
        confirmValue ≠ "" ∧ trim (input "abcdefg1" "password" "password").value ≠ confirmValue :=
  validatePassword_iff { confirmField := some "abcdefg2" }
    (input "abcdefg1" "password" "password") (by decide) (by decide)

/-! ## Empty fields -/

theorem numLt_nan_right (a : Price) : numLt a Price.nan = false := by
  cases a <;> rfl

theorem numLt_nan_left (a : Price) : numLt Price.nan a = false := by
  cases a <;> rfl

/-- C25, refuted as stated: a field named `password` that is not required and
is empty fails when a confirmation field holds a value. -/
theorem empty_password_with_confirmation :
    trim (input "" "password" "password").value = "" ∧
    (input "" "password" "password").required = false ∧
    validateField { confirmField := some "abc12345" } (input "" "password" "password") =
      false := by
  decide

/-- C25, amended: for a field whose trimmed value is empty, `validateField`
fails if the field is required; if it is not required it passes whatever its
type, its name and its min/max attributes, except that a field handled by the
password rule fails when a confirmation field holds a non-empty value (the
comparison with the confirmation value is not guarded by a non-empty
value). -/
theorem validateField_empty (document : Document) (field : Field)
    (hempty : trim field.value = "") :
    (field.required = true → validateField document field = false) ∧
    (field.required = false →
      (validateField document field = false ↔
        passwordRouted field = true ∧
          ∃ confirmValue, document.confirmField = some confirmValue ∧ confirmValue ≠ "")) := by
  have hnan : parseFloat "" = Price.nan := by decide
  have hlen : jsLength "" = 0 := rfl
  have hemail : validateEmail field = true := by simp [validateEmail, hempty]
  have hphone : validatePhone field = true := by simp [validatePhone, hempty]
  have hurl : validateURL field = true := by simp [validateURL, hempty]
  have hnumber : validateNumber field = true := by
    simp [validateNumber, hempty, hnan, numLt_nan_left, numLt_nan_right]
  have hname : validateName field = true := by simp [validateName, hempty]
  have hpassword : validatePassword document field = false ↔
      ∃ confirmValue, document.confirmField = some confirmValue ∧ confirmValue ≠ "" := by
    simp only [validatePassword, hempty]
    cases document.confirmField with
    | none => simp
    | some confirmValue =>
      by_cases hcv : confirmValue = ""
      · simp [hcv]
      · have hcv' : ¬ ("" = confirmValue) := fun h => hcv h.symm
        simp [hcv, hcv']
  constructor
  · intro hreq
    simp [validateField, hreq, hempty]
  · intro hreq
    simp only [validateField, hreq, hempty, Bool.false_and, Bool.false_eq_true, if_false,
      passwordRouted]
    by_cases h1 : field.type = "email"
    · simp [h1, hemail]
    · by_cases h2 : field.type = "tel"
      · simp [h2, hphone]
      · by_cases h3 : field.type = "url"
        · simp [h3, hurl]
        · by_cases h4 : field.type = "number"
          · simp [h4, hnumber]
          · simp only [h1, h2, h3, h4, if_false, beq_iff_eq, Bool.or_self, Bool.not_false,
              Bool.true_and]
            generalize (if (field.name != "") = true then field.name else field.id) = name
            by_cases hn : includes name "name" = true
            · have : (name != "") = true := by
                rw [bne_iff_ne]
                intro h
                rw [h] at hn
                revert hn
                decide
              simp [hn, this, hname, h1, h2, h3, h4]
            · have hn' : includes name "name" = false := by simpa using hn
              by_cases hp : includes name "password" = true
              · have : (name != "") = true := by
                  rw [bne_iff_ne]
                  intro h
                  rw [h] at hp
                  revert hp
                  decide
                simp [hn', hp, this, hpassword, h1, h2, h3, h4]
              · have hp' : includes name "password" = false := by simpa using hp
                simp [hn', hp', h1, h2, h3, h4]

/-- Witness of `validateField_empty`: a required empty e-mail field, and an
empty number field with a minimum that is not required. -/
theorem validateField_empty_witness :
    validateField { confirmField := none }
      { input "  " "email" "email" with required := true } = false ∧
    (validateField { confirmField := some "abc12345" }
        { input "" "number" "price" with min := some "0" } = false ↔
      passwordRouted { input "" "number" "price" with min := some "0" } = true ∧
        ∃ confirmValue, (Document.mk (some "abc12345")).confirmField = some confirmValue ∧
          confirmValue ≠ "") :=
  ⟨(validateField_empty { confirmField := none }
      { input "  " "email" "email" with required := true } (by decide)).1 rfl,
   (validateField_empty { confirmField := some "abc12345" }
      { input "" "number" "price" with min := some "0" } (by decide)).2 rfl⟩

end FormValidator
